import Mathlib

/-!
Verification of the HTML ↔ ADF conversion core of `subseq-adf-convert`.

The development shallowly embeds the Rust sources:

* `src/adf/adf_types.rs` — the document/mark data model.  The repository
  contains two snapshots of the node model (a split `AdfNode`/`AdfBlockNode`
  pair in `adf_types.rs`, and an older merged node enum that
  `adf_to_html.rs` and several handler files are written against).  We embed
  the merged form: one inductive `Adf` carrying every constructor of both
  enums with the payload shapes of `adf_types.rs`; the split model maps
  injectively into it and every handler reads naturally against it.
* `src/html_to_adf.rs` plus `src/handlers/*` — the stack-based builder.
  Panics (`panic!`, `expect`, `unwrap`) are modelled as `Except.error`.
  The Rust `Vec` stack pushes and pops at the end; we keep the stack as a
  `List` whose HEAD is the TOP of the stack, so `Vec::push`/`Vec::pop`/
  `last_mut` become `cons`/head patterns and `iter().rev()` becomes plain
  left-to-right traversal.  The mark stack is kept in `Vec` order (push at
  the end) so that `mark_stack.clone()` snapshots read off directly.
* `src/html_builder/mod.rs` — the depth-driven lazy output buffer used by
  `adf_to_html.rs`.
* the `html5ever` tokenizer (an external collaborator) is modelled for the
  fragment of HTML the renderer emits: start tags with quoted/unquoted
  attributes, self-closing slashes, end tags, and character runs.
-/

set_option maxHeartbeats 4000000
set_option maxRecDepth 8192

namespace AdfConvert

/-! ## Data model (`src/adf/adf_types.rs`) -/

/-- Mirror of `Subsup`. -/
inductive Subsup where
  | sub
  | sup
  deriving DecidableEq, Repr

/-- Mirror of `LinkMark`. -/
structure LinkMark where
  collection : Option String := none
  href : String := ""
  id : Option String := none
  occurrenceKey : Option String := none
  title : Option String := none
  deriving DecidableEq, Repr

/-- Mirror of `AdfMark` (declaration order matters for markup emission). -/
inductive AdfMark where
  | strong
  | em
  | code
  | link (mark : LinkMark)
  | strike
  | subsup (type_ : Subsup)
  | textColor (color : String)
  | underline
  | backgroundColor (color : String)
  deriving DecidableEq, Repr

/-- Mirror of `MediaDataType`. -/
inductive MediaDataType where
  | file
  | link
  deriving DecidableEq, Repr

/-- Mirror of `MediaAttrs`.  `u32` sizes become `Nat`. -/
structure MediaAttrs where
  alt : Option String := none
  collection : String := ""
  height : Option Nat := none
  id : String := ""
  type_ : MediaDataType := .file
  width : Option Nat := none
  deriving DecidableEq, Repr

/-- Mirror of `MediaMark`. -/
inductive MediaMark where
  | link (mark : LinkMark)
  | border (color : String) (size : Nat)
  deriving DecidableEq, Repr

/-- Mirror of `MediaNode` (the `type` field is the fixed `media` tag). -/
structure MediaNode where
  attrs : MediaAttrs
  marks : Option (List MediaMark) := none
  deriving DecidableEq, Repr

/-- Mirror of `TaskItemState`. -/
inductive TaskItemState where
  | todo
  | done
  deriving DecidableEq, Repr

/-- Mirror of `TaskItemAttrs`. -/
structure TaskItemAttrs where
  localId : String
  state : TaskItemState
  deriving DecidableEq, Repr

/-- Mirror of `ExpandAttrs`. -/
structure ExpandAttrs where
  title : Option String := none
  deriving DecidableEq, Repr

/-- Mirror of `StatusAttrs`. -/
structure StatusAttrs where
  localId : Option String := none
  text : String
  color : String
  deriving DecidableEq, Repr

/-- Mirror of `EmojiAttrs`. -/
structure EmojiAttrs where
  shortName : String
  text : Option String := none
  deriving DecidableEq, Repr

/-- Mirror of `AccessLevel`. -/
inductive AccessLevel where
  | none_
  | site
  | application
  deriving DecidableEq, Repr

/-- Mirror of `UserType`. -/
inductive UserType where
  | default
  | special
  | app
  deriving DecidableEq, Repr

/-- Mirror of `MentionAttrs`. -/
structure MentionAttrs where
  accessLevel : Option AccessLevel := none
  id : String
  text : Option String := none
  userType : Option UserType := none
  deriving DecidableEq, Repr

/-- Mirror of `CodeBlockAttrs`. -/
structure CodeBlockAttrs where
  language : Option String := none
  deriving DecidableEq, Repr

/-- Mirror of `OrderedListAttrs`. -/
structure OrderedListAttrs where
  order : Option Nat := none
  deriving DecidableEq, Repr

/-- Mirror of `TableAttrs`. -/
structure TableAttrs where
  isNumberColumnEnabled : Option Bool := none
  layout : Option String := none
  width : Option Nat := none
  displayMode : Option String := none
  deriving DecidableEq, Repr

/-- Mirror of `TableCellAttrs`. -/
structure TableCellAttrs where
  background : Option String := none
  colspan : Option Nat := none
  colwidth : Option (List Nat) := none
  rowspan : Option Nat := none
  deriving DecidableEq, Repr

/-- The merged document node type.  Every constructor corresponds to a
variant of `AdfNode`/`AdfBlockNode` in `adf_types.rs`; the wrapper structs
(`ListItem`, `TaskItem`, `DecisionItem`, `TableRow`, `TableRowEntry`) with
fixed `type` tags become the correspondingly named constructors.  Decision
items always carry the fixed `DECIDED` state, so no state field is kept.
`BlockCard` (whose datasource payload no handler or claim touches — the
parser registers no handler for it) is not embedded. -/
inductive Adf where
  | doc (content : List Adf) (version : Int)
  | blockquote (content : List Adf)
  | bulletList (content : List Adf)
  | codeBlock (attrs : Option CodeBlockAttrs) (content : Option (List Adf))
  | expand (content : List Adf) (attrs : ExpandAttrs)
  | nestedExpand (title : String) (content : List Adf)
  | paragraph (content : Option (List Adf))
  | rule
  | heading (level : Nat) (content : Option (List Adf))
  | panel (panelType : String) (content : List Adf)
  | mediaGroup (content : List MediaNode)
  | mediaSingle (layout : String) (content : List MediaNode)
  | table (attrs : Option TableAttrs) (content : List Adf)
  | orderedList (attrs : Option OrderedListAttrs) (content : List Adf)
  | taskList (localId : String) (content : List Adf)
  | decisionList (content : List Adf) (localId : String)
  | listItem (content : List Adf)
  | taskItem (content : List Adf) (attrs : TaskItemAttrs)
  | decisionItem (content : List Adf) (localId : String)
  | tableRow (content : List Adf)
  | tableHeader (attrs : Option TableCellAttrs) (content : List Adf)
  | tableCell (attrs : Option TableCellAttrs) (content : List Adf)
  | hardBreak
  | text (text : String) (marks : Option (List AdfMark))
  | date (timestamp : String)
  | emoji (attrs : EmojiAttrs)
  | inlineCard (url : Option String)
  | mention (attrs : MentionAttrs)
  | status (attrs : StatusAttrs)
  | unknown

/-! ## Mark application (`MarkAction::apply_to` in `src/adf/adf_types.rs`) -/

/-- Mirror of `MarkAction`. -/
inductive MarkAction where
  | add (mark : AdfMark)
  | remove (mark : AdfMark)

/-- Mirror of `MarkAction::apply_to`: adding dedups, and adding a code mark
replaces the whole set by `[code]`; removing retains the rest. -/
def MarkAction.applyTo (action : MarkAction) (marks : List AdfMark) : List AdfMark :=
  match action with
  | .add mark =>
      if marks.contains mark then marks
      else
        match mark with
        | .code => [mark]
        | _ => marks ++ [mark]
  | .remove mark => marks.filter (fun m => m ≠ mark)

/-! ## Builder state (`src/handlers/mod.rs`) -/

/-- Attribute lists: an `Element`'s attributes in document order.  Rust's
`attrs.iter().find(..)` becomes first-match lookup. -/
abbrev AttrList := List (String × String)

/-- First-match lookup, as `attrs.iter().find(|a| a.name.local == k)`. -/
def attrGet (attrs : AttrList) (k : String) : Option String :=
  (attrs.find? (fun a => a.fst = k)).map (·.snd)

/-- Whether an attribute with the given name is present, as
`attrs.iter().any(..)`. -/
def attrHas (attrs : AttrList) (k : String) : Bool :=
  attrs.any (fun a => a.fst = k)

/-- Insert into a `HashMap<String, String>` modelled as an association
list: replace an existing binding, otherwise append. -/
def attrInsert (attrs : AttrList) (k v : String) : AttrList :=
  if attrs.any (fun a => a.fst = k) then
    attrs.map (fun a => if a.fst = k then (k, v) else a)
  else attrs ++ [(k, v)]

/-- Mirror of `Element`: one tokenizer tag event as the handlers see it. -/
structure Element where
  tag : String
  attrs : AttrList
  selfClosing : Bool
  deriving DecidableEq, Repr

/-- Mirror of `CustomBlockType`. -/
inductive CustomBlockType where
  | div
  | emoji
  | status
  | decisionItem
  | expand
  | nestedExpand
  | panel
  | mention
  | inlineCard
  | date
  deriving DecidableEq, Repr

/-- Mirror of `MediaBlockType`. -/
inductive MediaBlockType where
  | mediaGroup
  | mediaSingle
  deriving DecidableEq, Repr

/-- Mirror of the builder-side `ListItemType` enum. -/
inductive ListItemTy where
  | decisionItem (content : List Adf) (localId : String)
  | listItem (content : List Adf)
  | taskItem (content : List Adf) (attrs : TaskItemAttrs)

/-- Mirror of `BlockContext`.  Children lists are kept in `Vec` order
(append at the end). -/
inductive BlockContext where
  | document (nodes : List Adf)
  | blockquote (nodes : List Adf)
  | codeBlock (lines : List String)
  | customBlock (ty : CustomBlockType) (nodes : List Adf) (attrs : AttrList)
  | mediaBlock (ty : MediaBlockType) (nodes : List MediaNode) (attrs : AttrList)
  | tableBlock (rows : List Adf)
  | tableRowBlock (cells : List Adf)
  | tableBlockCell (nodes : List Adf)
  | tableBlockHeader (nodes : List Adf)
  | heading (level : Nat) (nodes : List Adf)
  | summary (nodes : List Adf)
  | paragraph (nodes : List Adf)
  | pendingList (nodes : List ListItemTy) (ordered : Bool)
      (localId : Option String) (localTag : Option String)
  | listItem (nodes : List Adf)
  | taskItem (nodes : List Adf) (state : TaskItemState) (localId : String)
  | decisionItem (nodes : List Adf) (localId : String)

/-- Mirror of `LocalId`. -/
structure LocalId where
  localId : String
  deriving DecidableEq, Repr

/-- Mirror of `ADFBuilderState`.  `stack` holds the top frame at the HEAD
of the list (Rust pushes/pops at the end of a `Vec`). -/
structure ADFBuilderState where
  stack : List BlockContext
  markStack : List AdfMark
  currentText : String
  customBlockId : Option LocalId
  customBlockTag : Option String

/-- The state `ADFBuilder::new` starts from. -/
def initialState : ADFBuilderState :=
  { stack := [.document []]
    markStack := []
    currentText := ""
    customBlockId := none
    customBlockTag := none }

/-- Outcome of a fallible builder operation; `panic!`/`expect` become
`Except.error`. -/
abbrev BuildM (α : Type) := Except String α

/-! ## Small string helpers shared by the ported functions -/

/-- ASCII lowercasing of a string (`to_ascii_lowercase`). -/
def asciiLower (s : String) : String :=
  ⟨s.data.map Char.toLower⟩

/-- Rust's `str::trim` (whitespace from both ends), implemented by
structural recursion so that closed computations reduce in the kernel. -/
def strTrim (s : String) : String :=
  ⟨(((s.data.dropWhile Char.isWhitespace).reverse.dropWhile Char.isWhitespace).reverse)⟩

/-- Split at every occurrence of a separator character (the `split(';')` /
`splitn(2, ':')` scans only ever use one-character separators). -/
def splitOnChar (sep : Char) (s : String) : List String :=
  (go s.data).map fun cs => ⟨cs⟩
where
  go : List Char → List (List Char)
    | [] => [[]]
    | c :: cs =>
        if c = sep then [] :: go cs
        else
          match go cs with
          | [] => [[c]]
          | part :: parts => (c :: part) :: parts

/-- Join with a separator (structural `String::join` on a list). -/
def strIntercalate (sep : String) : List String → String
  | [] => ""
  | [x] => x
  | x :: xs => x ++ sep ++ strIntercalate sep xs

/-- Rust's `str::parse::<u32>` on the happy path: all characters are
digits and the string is nonempty. -/
def strToNat? (s : String) : Option Nat :=
  if s.data.isEmpty then none
  else if s.data.all Char.isDigit then
    some (s.data.foldl (fun acc c => acc * 10 + (c.toNat - 48)) 0)
  else none

/-- Rust's `str::parse::<i64>` on the happy path (optional leading
minus). -/
def strToInt? (s : String) : Option Int :=
  match s.data with
  | '-' :: rest =>
      (strToNat? ⟨rest⟩).map fun n => -(n : Int)
  | _ => (strToNat? s).map fun n => (n : Int)

/-- Decimal rendering of a natural number by structural recursion on a
fuel bound (the kernel accelerates the division). -/
def natToStringAux : Nat → Nat → List Char
  | 0, _ => []
  | fuel + 1, n =>
      if n < 10 then [Char.ofNat (48 + n)]
      else natToStringAux fuel (n / 10) ++ [Char.ofNat (48 + n % 10)]

/-- Decimal rendering of a natural number. -/
def natToString (n : Nat) : String :=
  ⟨natToStringAux (n + 1) n⟩

/-- Decimal rendering of an integer. -/
def intToString (i : Int) : String :=
  if i < 0 then "-" ++ natToString i.natAbs else natToString i.natAbs

/-- Rust's `str::eq_ignore_ascii_case`. -/
def eqIgnoreAsciiCase (a b : String) : Bool :=
  asciiLower a = asciiLower b

/-- Apply a function to the head of a list (edit the top stack frame in
place, as `stack.last_mut()`). -/
def mapHead (f : α → α) : List α → List α
  | [] => []
  | x :: xs => f x :: xs

/-! ## `clean_surrounding_text` (`src/html_to_adf.rs`) -/

/-- Left scan of `clean_surrounding_text`: walk leading characters; a
newline yields the index just past it, a non-whitespace character (or end
of input) yields 0. -/
def cleanStart : Nat → List Char → Nat
  | _, [] => 0
  | k, c :: cs =>
      if c = '\n' then k + 1
      else if ¬ c.isWhitespace then 0
      else cleanStart (k + 1) cs

/-- Right scan of `clean_surrounding_text` over the reversed characters: a
newline at distance `k` from the end yields `len - (k+1)`, a
non-whitespace character (or end of input) yields `len`. -/
def cleanEnd (len : Nat) : Nat → List Char → Nat
  | _, [] => len
  | k, c :: cs =>
      if c = '\n' then len - (k + 1)
      else if ¬ c.isWhitespace then len
      else cleanEnd len (k + 1) cs

/-- Mirror of `clean_surrounding_text`: removes leading and trailing
whitespace before and after newlines (character positions stand in for the
byte positions of the Rust original). -/
def cleanSurroundingText (s : String) : String :=
  let cs := s.data
  let start := cleanStart 0 cs
  let stop := cleanEnd cs.length 0 cs.reverse
  if start > stop then "" else ⟨(cs.drop start).take (stop - start)⟩

/-! ## Child insertion helpers (`src/html_to_adf.rs`) -/

/-- Mirror of `ADFBuilder::push_into_last_paragraph`: append the inline
node into a trailing paragraph, creating one if the last node is not a
paragraph. -/
def pushIntoLastParagraph (nodes : List Adf) (node : Adf) : List Adf :=
  match nodes.getLast? with
  | some (.paragraph content) =>
      nodes.dropLast ++ [.paragraph (some ((content.getD []) ++ [node]))]
  | _ => nodes ++ [.paragraph (some [node])]

/-! ## `flush_text` (`src/html_to_adf.rs`) -/

/-- The per-frame part of `flush_text`: where a nonempty cleaned text run
lands, given the mark snapshot.  Frames not listed get no text
(`_ => {}`). -/
def flushFrame (txt : String) (marks : Option (List AdfMark)) :
    BlockContext → BlockContext
  | .paragraph nodes => .paragraph (nodes ++ [.text txt marks])
  | .heading level nodes => .heading level (nodes ++ [.text txt marks])
  | .listItem nodes => .listItem (pushIntoLastParagraph nodes (.text txt marks))
  | .blockquote nodes => .blockquote (pushIntoLastParagraph nodes (.text txt marks))
  | .tableBlockHeader nodes =>
      .tableBlockHeader (pushIntoLastParagraph nodes (.text txt marks))
  | .tableBlockCell nodes =>
      .tableBlockCell (pushIntoLastParagraph nodes (.text txt marks))
  | .taskItem nodes st lid => .taskItem (nodes ++ [.text (strTrim txt) marks]) st lid
  | .decisionItem nodes lid => .decisionItem (nodes ++ [.text (strTrim txt) marks]) lid
  | .codeBlock lines => .codeBlock (lines ++ [txt])
  | f => f

/-- Whether the top frame triggers newline-adjacent trimming in
`flush_text` (`trim_for_blocks`). -/
def trimForBlocks : List BlockContext → Bool
  | .heading _ _ :: _ => true
  | .paragraph _ :: _ => true
  | .tableBlockCell _ :: _ => true
  | .tableBlockHeader _ :: _ => true
  | .blockquote _ :: _ => true
  | .listItem _ :: _ => true
  | _ => false

/-- Mirror of `ADFBuilder::flush_text`.  The pending text is taken
(cleared) in every path past the emptiness guard; blank text (after the
context trim) is dropped. -/
def flushText (s : ADFBuilderState) : ADFBuilderState :=
  if s.currentText.isEmpty then s
  else
    let txt := s.currentText
    let txt := if trimForBlocks s.stack then cleanSurroundingText txt else txt
    if (strTrim txt).isEmpty then { s with currentText := "" }
    else
      let marks := if s.markStack.isEmpty then none else some s.markStack
      { s with
          currentText := ""
          stack := mapHead (flushFrame txt marks) s.stack }

/-! ## Mark stack helpers -/

/-- Remove the most recently pushed element satisfying `p` (Rust
`rposition` + `remove`); scans from the push end. -/
def removeLastSatisfying (p : α → Bool) (xs : List α) : List α :=
  (go xs.reverse).reverse
where
  go : List α → List α
    | [] => []
    | x :: rest => if p x then rest else x :: go rest

/-- Mirror of `ADFBuilder::pop_mark`. -/
def popMark (s : ADFBuilderState) (p : AdfMark → Bool) : ADFBuilderState :=
  { s with markStack := removeLastSatisfying p s.markStack }

/-! ## `push_node_to_parent` and `push_node_block_to_parent` -/

/-- Mirror of `ADFBuilder::push_node_to_parent` (inline payloads). -/
def pushNodeToParent (s : ADFBuilderState) (node : Adf) : BuildM ADFBuilderState :=
  match s.stack with
  | [] => .error "There should always be at least the Document node"
  | frame :: rest =>
      match frame with
      | .paragraph nodes => .ok { s with stack := .paragraph (nodes ++ [node]) :: rest }
      | .heading level nodes =>
          .ok { s with stack := .heading level (nodes ++ [node]) :: rest }
      | .blockquote nodes =>
          .ok { s with stack := .blockquote (pushIntoLastParagraph nodes node) :: rest }
      | .listItem nodes =>
          .ok { s with stack := .listItem (pushIntoLastParagraph nodes node) :: rest }
      | .document nodes =>
          .ok { s with stack := .document (pushIntoLastParagraph nodes node) :: rest }
      | .tableBlockCell nodes =>
          .ok { s with stack := .tableBlockCell (pushIntoLastParagraph nodes node) :: rest }
      | .tableBlockHeader nodes =>
          .ok { s with stack := .tableBlockHeader (pushIntoLastParagraph nodes node) :: rest }
      | .customBlock ty nodes attrs =>
          match ty with
          | .div | .expand | .panel =>
              .ok { s with stack :=
                      .customBlock ty (pushIntoLastParagraph nodes node) attrs :: rest }
          | _ => .error "Invalid block context for custom block"
      | _ => .error "Invalid block context for node"

/-- An empty paragraph node, which `push_node_block_to_parent` silently
drops instead of appending. -/
def isDroppedParagraph : Adf → Bool
  | .paragraph (some content) => content.isEmpty
  | .paragraph none => true
  | _ => false

/-- Mirror of `ADFBuilder::push_node_block_to_parent` on the bare stack:
block containers receive the node (dropping empty paragraphs); an *empty*
paragraph frame on top is discarded and the push retries on its parent;
anything else is a structural fault. -/
def pushNodeBlockToStack : List BlockContext → Adf → BuildM (List BlockContext)
  | [], _ => .error "There should always be at least the Document node"
  | frame :: rest, node =>
      let push (mk : List Adf → BlockContext) (nodes : List Adf) :
          BuildM (List BlockContext) :=
        if isDroppedParagraph node then .ok (frame :: rest)
        else .ok (mk (nodes ++ [node]) :: rest)
      match frame with
      | .document nodes => push .document nodes
      | .blockquote nodes => push .blockquote nodes
      | .customBlock ty nodes attrs =>
          match ty with
          | .panel | .expand | .nestedExpand | .div =>
              push (fun ns => .customBlock ty ns attrs) nodes
          | _ => .error "Invalid block context for block node"
      | .listItem nodes => push .listItem nodes
      | .tableBlockCell nodes => push .tableBlockCell nodes
      | .tableBlockHeader nodes => push .tableBlockHeader nodes
      | .paragraph nodes =>
          if nodes.isEmpty then pushNodeBlockToStack rest node
          else .error "Invalid paragraph context for block node"
      | _ => .error "Invalid block context for block node"

/-- State-level wrapper of `push_node_block_to_parent`. -/
def pushNodeBlockToParent (s : ADFBuilderState) (node : Adf) : BuildM ADFBuilderState := do
  let stack ← pushNodeBlockToStack s.stack node
  .ok { s with stack := stack }

/-! ## `close_current_block` (`src/html_to_adf.rs`) -/

/-- The frame-against-parent core of `ADFBuilder::close_current_block`:
the popped frame becomes a typed node appended to the parent frame.  Every
`panic!` arm is an error. -/
def closeFrameInto (frame parent : BlockContext) : BuildM BlockContext :=
  match frame with
  | .paragraph nodes =>
      let push (mk : List Adf → BlockContext) (pn : List Adf) : BuildM BlockContext :=
        if nodes.isEmpty then .ok parent
        else .ok (mk (pn ++ [.paragraph (some nodes)]))
      match parent with
      | .document pn => push .document pn
      | .tableBlockCell pn => push .tableBlockCell pn
      | .tableBlockHeader pn => push .tableBlockHeader pn
      | .blockquote pn => push .blockquote pn
      | .listItem pn => push .listItem pn
      | .customBlock ty pn attrs =>
          match ty with
          | .div | .expand | .nestedExpand | .panel =>
              .ok (.customBlock ty (pn ++ [.paragraph (some nodes)]) attrs)
          | _ => .error "Invalid parent for Paragraph"
      | _ => .error "Invalid parent for Paragraph"
  | .customBlock .expand nodes attrs =>
      let node : Adf := .expand nodes { title := attrGet attrs "title" }
      match parent with
      | .document pn => .ok (.document (pn ++ [node]))
      | .tableBlockCell pn => .ok (.tableBlockCell (pn ++ [node]))
      | .tableBlockHeader pn => .ok (.tableBlockHeader (pn ++ [node]))
      | .listItem pn => .ok (.listItem (pn ++ [node]))
      | .blockquote pn => .ok (.blockquote (pn ++ [node]))
      | .customBlock ty pn pattrs =>
          match ty with
          | .div | .expand | .nestedExpand | .panel =>
              .ok (.customBlock ty (pn ++ [node]) pattrs)
          | _ => .error "Invalid parent for Paragraph"
      | _ => .error "Invalid parent for CustomBlock"
  | .codeBlock lines =>
      let node : Adf := .codeBlock none (some [.text (String.join lines) none])
      match parent with
      | .document pn => .ok (.document (pn ++ [node]))
      | .tableBlockCell pn => .ok (.tableBlockCell (pn ++ [node]))
      | .tableBlockHeader pn => .ok (.tableBlockHeader (pn ++ [node]))
      | .listItem pn => .ok (.listItem (pn ++ [node]))
      | .blockquote pn => .ok (.blockquote (pn ++ [node]))
      | .customBlock .div pn pattrs => .ok (.customBlock .div (pn ++ [node]) pattrs)
      | _ => .error "Invalid parent for CodeBlock"
  | .blockquote nodes =>
      let node : Adf := .blockquote nodes
      match parent with
      | .document pn => .ok (.document (pn ++ [node]))
      | .tableBlockCell pn => .ok (.tableBlockCell (pn ++ [node]))
      | .tableBlockHeader pn => .ok (.tableBlockHeader (pn ++ [node]))
      | .listItem pn => .ok (.listItem (pn ++ [node]))
      | .customBlock .div pn pattrs => .ok (.customBlock .div (pn ++ [node]) pattrs)
      | _ => .error "Invalid parent for Blockquote"
  | .pendingList nodes ordered localId localTag =>
      let isTaskList := localTag = some "task-list"
      let isDecisionList := localTag = some "decision-list"
      let node : Adf :=
        if isTaskList then
          .taskList (localId.getD "")
            (nodes.filterMap fun item =>
              match item with
              | .taskItem content attrs => some (.taskItem content attrs)
              | _ => none)
        else if isDecisionList then
          .decisionList
            (nodes.filterMap fun item =>
              match item with
              | .decisionItem content lid => some (.decisionItem content lid)
              | _ => none)
            (localId.getD "")
        else if ordered then
          .orderedList none
            (nodes.filterMap fun item =>
              match item with
              | .listItem content => some (.listItem content)
              | _ => none)
        else
          .bulletList
            (nodes.filterMap fun item =>
              match item with
              | .listItem content => some (.listItem content)
              | _ => none)
      match parent with
      | .document pn => .ok (.document (pn ++ [node]))
      | .customBlock .div pn pattrs => .ok (.customBlock .div (pn ++ [node]) pattrs)
      | .blockquote pn => .ok (.blockquote (pn ++ [node]))
      | .tableBlockCell pn => .ok (.tableBlockCell (pn ++ [node]))
      | .tableBlockHeader pn => .ok (.tableBlockHeader (pn ++ [node]))
      | .listItem pn => .ok (.listItem (pn ++ [node]))
      | _ => .error "Invalid parent for PendingList"
  | _ => .error "closed incorrectly; must use block-specific close method"

/-- Mirror of `ADFBuilder::close_current_block`: pop the top frame and
fold it into the new top. -/
def closeCurrentBlock (s : ADFBuilderState) : BuildM ADFBuilderState :=
  match s.stack with
  | [] => .error "Expected a block context"
  | [_] => .error "Document should always be present"
  | frame :: parent :: rest => do
      let parent' ← closeFrameInto frame parent
      .ok { s with stack := parent' :: rest }

/-! ## `close_current_list_item` (`src/html_to_adf.rs`) -/

/-- Mirror of `ADFBuilder::close_current_list_item`: flush, pop the item
frame, and append the matching `ListItemType` to the pending-list
parent. -/
def closeCurrentListItem (s : ADFBuilderState) : BuildM ADFBuilderState :=
  let s := flushText s
  match s.stack with
  | .listItem nodes :: rest =>
      match rest with
      | .pendingList list ordered lid ltag :: rest' =>
          .ok { s with stack :=
                  .pendingList (list ++ [.listItem nodes]) ordered lid ltag :: rest' }
      | _ => .error "ListItem closed without PendingList parent"
  | .taskItem nodes itemState localId :: rest =>
      match rest with
      | .pendingList list ordered lid ltag :: rest' =>
          let entry : ListItemTy := .taskItem nodes { localId := localId, state := itemState }
          .ok { s with stack := .pendingList (list ++ [entry]) ordered lid ltag :: rest' }
      | _ => .error "TaskItem closed without PendingList parent"
  | .decisionItem nodes localId :: rest =>
      match rest with
      | .pendingList list ordered lid ltag :: rest' =>
          .ok { s with stack :=
                  .pendingList (list ++ [.decisionItem nodes localId]) ordered lid ltag :: rest' }
      | _ => .error "DecisionItem closed without PendingList parent"
  | _ => .error "Invalid context for ListItem close"

/-! ## `push_inline` and `emit` (`src/html_to_adf.rs`) -/

/-- The per-frame part of `ADFBuilder::push_inline`; unlisted frames
silently ignore the node. -/
def pushInlineFrame (node : Adf) : BlockContext → BlockContext
  | .codeBlock lines => .codeBlock (lines ++ ["\n"])
  | .paragraph nodes => .paragraph (nodes ++ [node])
  | .heading level nodes => .heading level (nodes ++ [node])
  | .decisionItem nodes lid => .decisionItem (nodes ++ [node]) lid
  | .taskItem nodes st lid => .taskItem (nodes ++ [node]) st lid
  | .blockquote nodes => .blockquote (pushIntoLastParagraph nodes node)
  | .listItem nodes => .listItem (pushIntoLastParagraph nodes node)
  | f => f

/-- Mirror of `ADFBuilder::push_inline`. -/
def pushInline (s : ADFBuilderState) (node : Adf) : ADFBuilderState :=
  { s with stack := mapHead (pushInlineFrame node) s.stack }

/-- Mirror of `ADFBuilder::flush_text_and_push_inline`. -/
def flushTextAndPushInline (s : ADFBuilderState) (node : Adf) : ADFBuilderState :=
  pushInline (flushText s) node

/-- The `while state.stack.len() > 1` loop of `emit`, with fuel;
`close_current_block` removes exactly one frame per successful step, so
fuel equal to the stack length always suffices. -/
def emitLoop : Nat → ADFBuilderState → BuildM ADFBuilderState
  | 0, s => if s.stack.length > 1 then .error "emit loop out of fuel" else .ok s
  | fuel + 1, s =>
      if s.stack.length > 1 then do
        emitLoop fuel (← closeCurrentBlock s)
      else .ok s

/-- Mirror of `ADFBuilder::emit`: flush, close all frames innermost-first,
and wrap the document content with schema version 1. -/
def emit (s : ADFBuilderState) : BuildM Adf := do
  let s := flushText s
  let s ← emitLoop s.stack.length s
  match s.stack with
  | .document content :: _ => .ok (.doc content 1)
  | _ :: _ => .error "Expected Document at the base of stack"
  | [] => .error "Expected Document at the base of stack"

/-! ## `extract_style` and `extract_text` -/

/-- Mirror of the free function `extract_style`: scan `;`-separated rules,
split each at the first `:`, and return the trimmed value of the first
rule whose trimmed name matches the property ASCII-case-insensitively. -/
def extractStyle (style property : String) : Option String :=
  (splitOnChar ';' style).findSome? fun rulePart =>
    match splitOnChar ':' rulePart with
    | [] => none
    | [_] => none
    | nm :: rest =>
        let value := strIntercalate ":" rest
        if eqIgnoreAsciiCase (strTrim nm) property then some (strTrim value) else none

/-- Mirror of `ADFBuilder::extract_text`. -/
def extractText : Adf → String
  | .paragraph (some nodes) =>
      String.join (nodes.filterMap fun n =>
        match n with
        | .text t _ => some t
        | _ => none)
  | _ => ""

/-! ## Handlers (`src/handlers/*.rs`)

Each handler mirrors `Fn(&mut ADFBuilderState, Element) -> bool`; the
returned `Bool` is the consumed flag used by the two-tier dispatch.  The
handler snapshots call a combined `push_block_to_parent`; under the live
`html_to_adf.rs` that operation is split, so calls carrying inline nodes
(text, date, emoji, mention, status, inline-card) go through
`push_node_to_parent` and calls carrying block nodes (rule, paragraph,
heading, expand, panel, media blocks) go through
`push_node_block_to_parent`, matching the expectations recorded in the
module's own tests.  The `state.preformatted` / `state.heavy_trim`
assignments of the snapshot handlers refer to fields that do not exist on
`ADFBuilderState` and are dropped. -/

/-- Result of one handler invocation. -/
abbrev HandlerResult := BuildM (Bool × ADFBuilderState)

/-- Collect an element's attribute list into the handler-side string map
(`attrs.iter().map(..).collect::<HashMap<_, _>>()`). -/
def collectAttrs (attrs : AttrList) : AttrList :=
  attrs.foldl (fun m a => attrInsert m a.fst a.snd) []

/-- Push a fresh frame. -/
def pushFrame (s : ADFBuilderState) (f : BlockContext) : ADFBuilderState :=
  { s with stack := f :: s.stack }

/-- Mirror of `hard_break_start_handler`. -/
def hardBreakStartHandler (s : ADFBuilderState) (_e : Element) : HandlerResult :=
  .ok (true, flushTextAndPushInline s .hardBreak)

/-- Whether the top frame is one the `hr` handler must close before
inserting a Rule (paragraph, list-item, blockquote, table cell/header). -/
def ruleMustClose : List BlockContext → Bool
  | .paragraph _ :: _ => true
  | .listItem _ :: _ => true
  | .blockquote _ :: _ => true
  | .tableBlockCell _ :: _ => true
  | .tableBlockHeader _ :: _ => true
  | _ => false

/-- The `while` loop of `rule_start_handler`, with fuel (each successful
close removes one frame, so the stack length bounds the iterations). -/
def ruleCloseLoop : Nat → ADFBuilderState → BuildM ADFBuilderState
  | 0, s => if ruleMustClose s.stack then .error "rule close loop out of fuel" else .ok s
  | fuel + 1, s =>
      if ruleMustClose s.stack then do
        ruleCloseLoop fuel (← closeCurrentBlock s)
      else .ok s

/-- Mirror of `rule_start_handler`. -/
def ruleStartHandler (s : ADFBuilderState) (_e : Element) : HandlerResult := do
  let s := flushText s
  let s ← ruleCloseLoop s.stack.length s
  let s ← pushNodeBlockToParent s .rule
  .ok (true, s)

/-- Whether any frame on the stack is a code block (`in_pre`). -/
def inPre (s : ADFBuilderState) : Bool :=
  s.stack.any fun f =>
    match f with
    | .codeBlock _ => true
    | _ => false

/-- Mirror of `code_start_handler`: outside `<pre>` a `code` mark is
pushed on top of whatever marks are active. -/
def codeStartHandler (s : ADFBuilderState) (_e : Element) : HandlerResult :=
  let s := flushText s
  if inPre s then .ok (true, s)
  else .ok (true, { s with markStack := s.markStack ++ [.code] })

/-- Mirror of `code_end_handler`. -/
def codeEndHandler (s : ADFBuilderState) (_e : Element) : HandlerResult :=
  let s := flushText s
  if inPre s then .ok (true, s)
  else
    .ok (true, popMark s fun m =>
      match m with
      | .code => true
      | _ => false)

/-- Mirror of `span_start_handler`: a `color` style pushes a text-color
mark, otherwise a `background-color` style pushes a background mark;
a span with neither (or with no style attribute) changes nothing beyond
the flush. -/
def spanStartHandler (s : ADFBuilderState) (e : Element) : HandlerResult :=
  let s := flushText s
  match attrGet e.attrs "style" with
  | some styleAttr =>
      let style := asciiLower styleAttr
      match extractStyle style "color" with
      | some color => .ok (true, { s with markStack := s.markStack ++ [.textColor color] })
      | none =>
          match extractStyle style "background-color" with
          | some bg => .ok (true, { s with markStack := s.markStack ++ [.backgroundColor bg] })
          | none => .ok (true, s)
  | none => .ok (true, s)

/-- Mirror of `div_start_handler`. -/
def divStartHandler (s : ADFBuilderState) (e : Element) : HandlerResult :=
  let s := flushText s
  .ok (true, pushFrame s (.customBlock .div [] (collectAttrs e.attrs)))

/-- Mirror of `div_end_handler`: all-inline children collapse to a styled
text run (if the div carried a color style) or a paragraph; block children
are spliced transparently into the parent. -/
def divEndHandler (s : ADFBuilderState) (_e : Element) : HandlerResult := do
  let s := flushText s
  match s.stack with
  | .customBlock .div nodes attrs :: rest =>
      let s := { s with stack := rest }
      let allInline := nodes.all fun n =>
        match n with
        | .text _ _ => true
        | .hardBreak => true
        | _ => false
      if allInline then
        if nodes.isEmpty then .ok (true, s)
        else
          let paragraphNode : Adf := .paragraph (some nodes)
          let color := (attrGet attrs "style").bind (fun st => extractStyle st "color")
          let bg := (attrGet attrs "style").bind (fun st => extractStyle st "background-color")
          if color.isSome || bg.isSome then
            let colorMarks :=
              match color with
              | some c => [AdfMark.textColor c]
              | none => []
            let bgMarks :=
              match bg with
              | some b => [AdfMark.backgroundColor b]
              | none => []
            let s ← pushNodeToParent s (.text (extractText paragraphNode) (some (colorMarks ++ bgMarks)))
            .ok (true, s)
          else do
            let s ← pushNodeBlockToParent s paragraphNode
            .ok (true, s)
      else
        if nodes.isEmpty then .ok (true, s)
        else do
          let s ← nodes.foldlM pushNodeBlockToParent s
          .ok (true, s)
  | _ => .error "Mismatched div close tag"

/-- Mirror of `ul_start_handler`: takes the local-id/local-tag side
channel left by a preceding `adf-local-data` marker. -/
def ulStartHandler (s : ADFBuilderState) (_e : Element) : HandlerResult :=
  let customId := s.customBlockId
  let customTag := s.customBlockTag
  let s := { s with customBlockId := none, customBlockTag := none }
  let s := flushText s
  .ok (true, pushFrame s (.pendingList [] false (customId.map (·.localId)) customTag))

/-- Mirror of `ol_start_handler`. -/
def olStartHandler (s : ADFBuilderState) (_e : Element) : HandlerResult :=
  let s := flushText s
  .ok (true, pushFrame s (.pendingList [] true none none))

/-- Mirror of `li_start_handler`. -/
def liStartHandler (s : ADFBuilderState) (_e : Element) : HandlerResult :=
  let s := flushText s
  .ok (true, pushFrame s (.listItem []))

/-- Mirror of `p_start_handler`. -/
def pStartHandler (s : ADFBuilderState) (_e : Element) : HandlerResult :=
  let s := flushText s
  .ok (true, pushFrame s (.paragraph []))

/-- Mirror of `pre_start_handler`. -/
def preStartHandler (s : ADFBuilderState) (_e : Element) : HandlerResult :=
  let s := flushText s
  .ok (true, pushFrame s (.codeBlock []))

/-- Mirror of `blockquote_start_handler`. -/
def blockquoteStartHandler (s : ADFBuilderState) (_e : Element) : HandlerResult :=
  let s := flushText s
  .ok (true, pushFrame s (.blockquote []))

/-- Shared shape of the inline-mark start handlers. -/
def pushMarkHandler (mark : AdfMark) (s : ADFBuilderState) (_e : Element) : HandlerResult :=
  let s := flushText s
  .ok (true, { s with markStack := s.markStack ++ [mark] })

/-- Mirror of `em_start_handler`. -/
def emStartHandler : ADFBuilderState → Element → HandlerResult :=
  pushMarkHandler .em

/-- Mirror of `strong_start_handler`. -/
def strongStartHandler : ADFBuilderState → Element → HandlerResult :=
  pushMarkHandler .strong

/-- Mirror of `del_start_handler`. -/
def delStartHandler : ADFBuilderState → Element → HandlerResult :=
  pushMarkHandler .strike

/-- Mirror of `u_start_handler`. -/
def uStartHandler : ADFBuilderState → Element → HandlerResult :=
  pushMarkHandler .underline

/-- Mirror of `sub_start_handler`. -/
def subStartHandler : ADFBuilderState → Element → HandlerResult :=
  pushMarkHandler (.subsup .sub)

/-- Mirror of `sup_start_handler`. -/
def supStartHandler : ADFBuilderState → Element → HandlerResult :=
  pushMarkHandler (.subsup .sup)

/-- Mirror of `a_start_handler`: pushes a link mark when `href` is
present. -/
def aStartHandler (s : ADFBuilderState) (e : Element) : HandlerResult :=
  let s := flushText s
  match attrGet e.attrs "href" with
  | some href => .ok (true, { s with markStack := s.markStack ++ [.link { href := href }] })
  | none => .ok (true, s)

/-- Mirror of `header_start_handler`. -/
def headerStartHandler (level : Nat) (s : ADFBuilderState) (_e : Element) : HandlerResult :=
  let s := flushText s
  .ok (true, pushFrame s (.heading level []))

/-- Mirror of `ul_end_handler` / `ol_end_handler`. -/
def listEndHandler (s : ADFBuilderState) (_e : Element) : HandlerResult := do
  let s := flushText s
  let s ← closeCurrentBlock s
  .ok (true, s)

/-- Mirror of `li_end_handler`. -/
def liEndHandler (s : ADFBuilderState) (_e : Element) : HandlerResult := do
  let s ← closeCurrentListItem s
  .ok (true, s)

/-- Mirror of `p_end_handler` / `pre_end_handler` /
`blockquote_end_handler`. -/
def blockEndHandler (s : ADFBuilderState) (_e : Element) : HandlerResult := do
  let s := flushText s
  let s ← closeCurrentBlock s
  .ok (true, s)

/-- Mirror of `mark_end_handler`: flush, then `mark_stack.pop()` (the most
recently pushed mark, whatever it is). -/
def markEndHandler (s : ADFBuilderState) (_e : Element) : HandlerResult :=
  let s := flushText s
  .ok (true, { s with markStack := s.markStack.dropLast })

/-- Mirror of `header_end_handler`. -/
def headerEndHandler (level : Nat) (s : ADFBuilderState) (_e : Element) : HandlerResult := do
  let s := flushText s
  match s.stack with
  | .heading lvl nodes :: rest =>
      if lvl = level then do
        let s ← pushNodeBlockToParent { s with stack := rest } (.heading level (some nodes))
        .ok (true, s)
      else .error "Mismatched heading close level"
  | _ => .error "Mismatched heading close tag"

/-! ### Table handlers (`src/handlers/table.rs`) -/

/-- Mirror of `table_start_handler`. -/
def tableStartHandler (s : ADFBuilderState) (_e : Element) : HandlerResult :=
  let s := flushText s
  .ok (true, pushFrame s (.tableBlock []))

/-- Mirror of `table_section_start_handler`/`table_section_end_handler`:
`thead`/`tbody` are transparent no-ops. -/
def tableSectionHandler (s : ADFBuilderState) (_e : Element) : HandlerResult :=
  .ok (true, s)

/-- Mirror of `table_row_start_handler`. -/
def tableRowStartHandler (s : ADFBuilderState) (_e : Element) : HandlerResult :=
  let s := flushText s
  .ok (true, pushFrame s (.tableRowBlock []))

/-- Mirror of `table_cell_start_handler`. -/
def tableCellStartHandler (s : ADFBuilderState) (_e : Element) : HandlerResult :=
  let s := flushText s
  .ok (true, pushFrame s (.tableBlockCell []))

/-- Mirror of `table_header_start_handler`. -/
def tableHeaderStartHandler (s : ADFBuilderState) (_e : Element) : HandlerResult :=
  let s := flushText s
  .ok (true, pushFrame s (.tableBlockHeader []))

/-- Mirror of `table_end_handler`: pops unconditionally; a mismatched top
frame is discarded and the handler reports unconsumed. -/
def tableEndHandler (s : ADFBuilderState) (_e : Element) : HandlerResult := do
  let s := flushText s
  match s.stack with
  | .tableBlock rows :: rest => do
      let s ← pushNodeBlockToParent { s with stack := rest } (.table none rows)
      .ok (true, s)
  | _ :: rest => .ok (false, { s with stack := rest })
  | [] => .ok (false, s)

/-- Mirror of `close_current_table_row` (+ `push_row_to_table`). -/
def closeCurrentTableRow (s : ADFBuilderState) : BuildM ADFBuilderState :=
  match s.stack with
  | .tableRowBlock cells :: rest =>
      match rest with
      | .tableBlock rows :: rest' =>
          .ok { s with stack := .tableBlock (rows ++ [.tableRow cells]) :: rest' }
      | _ => .error "No table block found in stack"
  | _ => .error "No table row block found in stack"

/-- Mirror of `close_current_table_cell` (+ `push_cell_to_row`). -/
def closeCurrentTableCell (s : ADFBuilderState) : BuildM ADFBuilderState :=
  match s.stack with
  | .tableBlockCell nodes :: rest =>
      match rest with
      | .tableRowBlock cells :: rest' =>
          .ok { s with stack := .tableRowBlock (cells ++ [.tableCell none nodes]) :: rest' }
      | _ => .error "No table row block found in stack"
  | _ => .error "No table cell block found in stack"

/-- Mirror of `close_current_table_header` (+ `push_header_to_row`). -/
def closeCurrentTableHeader (s : ADFBuilderState) : BuildM ADFBuilderState :=
  match s.stack with
  | .tableBlockHeader nodes :: rest =>
      match rest with
      | .tableRowBlock cells :: rest' =>
          .ok { s with stack := .tableRowBlock (cells ++ [.tableHeader none nodes]) :: rest' }
      | _ => .error "No table row block found in stack"
  | _ => .error "No table header block found in stack"

/-- Mirror of `table_row_end_handler`. -/
def tableRowEndHandler (s : ADFBuilderState) (_e : Element) : HandlerResult := do
  let s := flushText s
  let s ← closeCurrentTableRow s
  .ok (true, s)

/-- Mirror of `table_cell_end_handler`. -/
def tableCellEndHandler (s : ADFBuilderState) (_e : Element) : HandlerResult := do
  let s := flushText s
  let s ← closeCurrentTableCell s
  .ok (true, s)

/-- Mirror of `table_header_end_handler`. -/
def tableHeaderEndHandler (s : ADFBuilderState) (_e : Element) : HandlerResult := do
  let s := flushText s
  let s ← closeCurrentTableHeader s
  .ok (true, s)

/-! ### Task-item migration (`src/handlers/tasks.rs`) -/

/-- The pop loop of `task_item_start_handler`: discard frames until the
first list-item frame, returning its accumulated children and the
remaining stack. -/
def popToListItem : List BlockContext → BuildM (List Adf × List BlockContext)
  | [] => .error "No list item found in stack"
  | .listItem inner :: rest => .ok (inner, rest)
  | _ :: rest => popToListItem rest

/-- Mirror of `task_item_start_handler`: migrate the open list-item frame
into a task-item frame (done iff `checked` is present, local-id from
`id`); any `type` other than `checkbox` — or a missing `type` — is a
fatal fault. -/
def taskItemStartHandler (s : ADFBuilderState) (e : Element) : HandlerResult := do
  let hasListItem := s.stack.any fun f =>
    match f with
    | .listItem _ => true
    | _ => false
  if ¬ hasListItem then .ok (false, s)
  else do
    let (inner, rest) ← popToListItem s.stack
    match attrGet e.attrs "type" with
    | some inputType =>
        if eqIgnoreAsciiCase inputType "checkbox" then
          let checked := attrHas e.attrs "checked"
          let itemState : TaskItemState := if checked then .done else .todo
          let localId := (attrGet e.attrs "id").getD ""
          .ok (true, { s with stack := .taskItem inner itemState localId :: rest })
        else .error "Unsupported type attribute for task item"
    | none => .error "No type attribute found for task item"

/-! ### Decision items (`src/handlers/decisions.rs`) -/

/-- Mirror of `decision_start_handler` (no end handler is registered for
`adf-decision-item` in `ADFBuilder::new`). -/
def decisionStartHandler (s : ADFBuilderState) (e : Element) : HandlerResult :=
  let localId := (attrGet e.attrs "id").getD ""
  .ok (true, pushFrame s (.decisionItem [] localId))

/-! ### Custom pseudo-elements (`src/handlers/custom.rs`) -/

/-- Modelled from the spec: `chrono::DateTime::parse_from_rfc3339` is an
external collaborator; no claim depends on a successfully parsed
timestamp, so the parse is abstracted as always failing and the handler
takes the source's `unwrap_or(0)` default. -/
def parseRfc3339Timestamp (_s : String) : Option Int := none

/-- Mirror of `date_start_handler` (`<time>`). -/
def dateStartHandler (s : ADFBuilderState) (e : Element) : HandlerResult :=
  let s := flushText s
  .ok (true, pushFrame s (.customBlock .date [] (collectAttrs e.attrs)))

/-- Mirror of `date_end_handler`: pops unconditionally; a mismatched top
frame is discarded and the handler reports unconsumed. -/
def dateEndHandler (s : ADFBuilderState) (_e : Element) : HandlerResult := do
  let s := flushText s
  match s.stack with
  | .customBlock .date _ attrs :: rest =>
      let timestampStr := (attrGet attrs "datetime").getD ""
      let timestamp := (parseRfc3339Timestamp timestampStr).getD 0
      let s ← pushNodeToParent { s with stack := rest } (.date (intToString timestamp))
      .ok (true, s)
  | _ :: rest => .ok (false, { s with stack := rest })
  | [] => .ok (false, s)

/-- Mirror of `details_start_handler`: `data-nested` selects the
nested-expand frame kind. -/
def detailsStartHandler (s : ADFBuilderState) (e : Element) : HandlerResult :=
  let s := flushText s
  let ty : CustomBlockType := if attrHas e.attrs "data-nested" then .nestedExpand else .expand
  .ok (true, pushFrame s (.customBlock ty [] (collectAttrs e.attrs)))

/-- Store a summary text on the nearest (topmost) expand/nested-expand
frame, as `summary_end_handler` does via `iter_mut().rev().find(..)`. -/
def storeSummary : List BlockContext → String → Option (List BlockContext)
  | [], _ => none
  | .customBlock ty nodes attrs :: rest, txt =>
      match ty with
      | .expand =>
          some (.customBlock .expand nodes (attrInsert attrs "data-summary" txt) :: rest)
      | .nestedExpand =>
          some (.customBlock .nestedExpand nodes (attrInsert attrs "data-summary" txt) :: rest)
      | _ => (storeSummary rest txt).map (.customBlock ty nodes attrs :: ·)
  | f :: rest, txt => (storeSummary rest txt).map (f :: ·)

/-- Mirror of `summary_end_handler`: capture the accumulated text as the
`data-summary` attribute of the nearest enclosing expand frame. -/
def summaryEndHandler (s : ADFBuilderState) (_e : Element) : HandlerResult :=
  let summaryText := strTrim s.currentText
  let s := { s with currentText := "" }
  match storeSummary s.stack summaryText with
  | some stack => .ok (true, { s with stack := stack })
  | none => .ok (false, s)

/-- Mirror of `details_end_handler`: pops unconditionally; expand frames
become Expand nodes (empty title elided), nested-expand frames become
NestedExpand nodes; any other popped frame is discarded unconsumed. -/
def detailsEndHandler (s : ADFBuilderState) (_e : Element) : HandlerResult := do
  let s := flushText s
  match s.stack with
  | .customBlock ty nodes attrs :: rest =>
      let title := (attrGet attrs "data-summary").getD ""
      match ty with
      | .expand => do
          let titleOpt := if title.isEmpty then none else some title
          let s ← pushNodeBlockToParent { s with stack := rest } (.expand nodes { title := titleOpt })
          .ok (true, s)
      | .nestedExpand => do
          let s ← pushNodeBlockToParent { s with stack := rest } (.nestedExpand title nodes)
          .ok (true, s)
      | _ => .ok (false, { s with stack := rest })
  | _ :: rest => .ok (false, { s with stack := rest })
  | [] => .ok (false, s)

/-- Mirror of `figure_start_handler` (panels). -/
def figureStartHandler (s : ADFBuilderState) (e : Element) : HandlerResult :=
  let s := flushText s
  .ok (true, pushFrame s (.customBlock .panel [] (collectAttrs e.attrs)))

/-- Mirror of `figure_end_handler`: pops unconditionally; a panel frame
becomes a Panel node (type defaulting to `info`), anything else is
discarded unconsumed. -/
def figureEndHandler (s : ADFBuilderState) (_e : Element) : HandlerResult := do
  let s := flushText s
  match s.stack with
  | .customBlock .panel nodes attrs :: rest =>
      let panelType := (attrGet attrs "data-panel-type").getD "info"
      let s ← pushNodeBlockToParent { s with stack := rest } (.panel panelType nodes)
      .ok (true, s)
  | _ :: rest => .ok (false, { s with stack := rest })
  | [] => .ok (false, s)

/-- Mirror of `mention_start_handler`. -/
def mentionStartHandler (s : ADFBuilderState) (e : Element) : HandlerResult :=
  let s := flushText s
  .ok (true, pushFrame s (.customBlock .mention [] (collectAttrs e.attrs)))

/-- Deserialization of the `data-user-type` attribute: the handler wraps
the raw value (defaulting to `DEFAULT`) in JSON quotes and parses an
optional `UserType`, falling back to `None` on failure
(`unwrap_or_default`). -/
def parseUserTypeAttr (v : Option String) : Option UserType :=
  let str := v.getD "DEFAULT"
  if str = "DEFAULT" then some .default
  else if str = "SPECIAL" then some .special
  else if str = "APP" then some .app
  else none

/-- Deserialization of the `data-access-level` attribute (default
`NONE`), falling back to `None` on failure. -/
def parseAccessLevelAttr (v : Option String) : Option AccessLevel :=
  let str := v.getD "NONE"
  if str = "NONE" then some .none_
  else if str = "SITE" then some .site
  else if str = "APPLICATION" then some .application
  else none

/-- Mirror of `mention_end_handler`: pops unconditionally; on a mention
frame the accumulated text becomes the mention text (empty elided). -/
def mentionEndHandler (s : ADFBuilderState) (_e : Element) : HandlerResult := do
  match s.stack with
  | .customBlock .mention _ attrs :: rest =>
      let txt := strTrim s.currentText
      let s := { s with currentText := "", stack := rest }
      let userType := parseUserTypeAttr (attrGet attrs "data-user-type")
      let accessLevel := parseAccessLevelAttr (attrGet attrs "data-access-level")
      let node : Adf := .mention
        { id := (attrGet attrs "data-mention-id").getD ""
          text := if txt.isEmpty then none else some txt
          userType := userType
          accessLevel := accessLevel }
      let s ← pushNodeToParent s node
      .ok (true, s)
  | _ :: rest => .ok (false, { s with stack := rest })
  | [] => .ok (false, s)

/-- Mirror of `local_data_start_handler`: record the local-id/local-tag
side channel consumed by the next `ul`. -/
def localDataStartHandler (s : ADFBuilderState) (e : Element) : HandlerResult :=
  let localId := (attrGet e.attrs "id").map (fun idv => LocalId.mk idv)
  let tag := attrGet e.attrs "data-tag"
  .ok (true, { s with customBlockId := localId, customBlockTag := tag })

/-- Mirror of `status_start_handler`. -/
def statusStartHandler (s : ADFBuilderState) (e : Element) : HandlerResult :=
  let s := flushText s
  let s := { s with currentText := "" }
  .ok (true, pushFrame s (.customBlock .status [] (collectAttrs e.attrs)))

/-- Mirror of `status_end_handler`: color from the `background-color`
style (default `neutral`), local-id from `aria-label`; a mismatched close
is a fatal fault. -/
def statusEndHandler (s : ADFBuilderState) (_e : Element) : HandlerResult := do
  match s.stack with
  | .customBlock .status _ attrs :: rest =>
      let txt := strTrim s.currentText
      let s := { s with currentText := "", stack := rest }
      let color := (attrGet attrs "style").bind (fun st => extractStyle st "background-color")
      let localId := attrGet attrs "aria-label"
      let node : Adf := .status
        { color := color.getD "neutral", localId := localId, text := txt }
      let s ← pushNodeToParent s node
      .ok (true, s)
  | _ => .error "Mismatched status close tag"

/-- Mirror of `emoji_start_handler`. -/
def emojiStartHandler (s : ADFBuilderState) (e : Element) : HandlerResult :=
  let s := flushText s
  let s := { s with currentText := "" }
  .ok (true, pushFrame s (.customBlock .emoji [] (collectAttrs e.attrs)))

/-- Mirror of `emoji_end_handler`: short name from `aria-alt` (default
`:smile:`); a mismatched close is a fatal fault. -/
def emojiEndHandler (s : ADFBuilderState) (_e : Element) : HandlerResult := do
  match s.stack with
  | .customBlock .emoji _ attrs :: rest =>
      let shortName := (attrGet attrs "aria-alt").getD ":smile:"
      let txt := strTrim s.currentText
      let s := { s with currentText := "", stack := rest }
      let s ← pushNodeToParent s (.emoji { shortName := shortName, text := some txt })
      .ok (true, s)
  | _ => .error "Mismatched emoji close tag"

/-! ### Media handlers (`src/handlers/media.rs`) -/

/-- Mirror of `media_single_start_handler`. -/
def mediaSingleStartHandler (s : ADFBuilderState) (e : Element) : HandlerResult :=
  let s := flushText s
  .ok (true, pushFrame s (.mediaBlock .mediaSingle [] (collectAttrs e.attrs)))

/-- Mirror of `media_single_end_handler`: pops unconditionally (a
mismatched frame is discarded but the event still counts as consumed);
`data-layout` is a required attribute. -/
def mediaSingleEndHandler (s : ADFBuilderState) (_e : Element) : HandlerResult := do
  let s := flushText s
  match s.stack with
  | .mediaBlock .mediaSingle nodes attrs :: rest =>
      match attrGet attrs "data-layout" with
      | some layout => do
          let s ← pushNodeBlockToParent { s with stack := rest } (.mediaSingle layout nodes)
          .ok (true, s)
      | none => .error "Required attribute data-layout"
  | _ :: rest => .ok (true, { s with stack := rest })
  | [] => .ok (true, s)

/-- Mirror of `media_group_start_handler`. -/
def mediaGroupStartHandler (s : ADFBuilderState) (e : Element) : HandlerResult :=
  let s := flushText s
  .ok (true, pushFrame s (.mediaBlock .mediaGroup [] (collectAttrs e.attrs)))

/-- Mirror of `media_group_end_handler`: pops unconditionally. -/
def mediaGroupEndHandler (s : ADFBuilderState) (_e : Element) : HandlerResult := do
  let s := flushText s
  match s.stack with
  | .mediaBlock .mediaGroup nodes _ :: rest => do
      let s ← pushNodeBlockToParent { s with stack := rest } (.mediaGroup nodes)
      .ok (true, s)
  | _ :: rest => .ok (true, { s with stack := rest })
  | [] => .ok (true, s)

/-- Mirror of `push_media_node_to_parent`. -/
def pushMediaNodeToParent (s : ADFBuilderState) (node : MediaNode) : BuildM ADFBuilderState :=
  match s.stack with
  | .mediaBlock ty nodes attrs :: rest =>
      .ok { s with stack := .mediaBlock ty (nodes ++ [node]) attrs :: rest }
  | _ :: _ => .error "Expected MediaBlock on stack"
  | [] => .error "There should always be at least the Document node"

/-- Helper for `stripTrailingPx`: remove leading `xp` pairs from the
reversed character list. -/
def stripTrailingPxAux : List Char → List Char
  | 'x' :: 'p' :: rest => stripTrailingPxAux rest
  | cs => cs

/-- Strip every trailing `px` (Rust `trim_end_matches("px")`). -/
def stripTrailingPx (s : String) : String :=
  ⟨(stripTrailingPxAux s.data.reverse).reverse⟩

/-- Parse a pixel dimension from a style value
(`v.trim().trim_end_matches("px").parse::<u32>()`). -/
def parsePx (v : String) : Option Nat :=
  strToNat? (stripTrailingPx (strTrim v))

/-- Mirror of `media_and_inline_card_start_handler`: inside a media block
an `a`/`img` becomes a media node (link/file, dimensions from the inline
style); outside, an `a` carrying `data-inline-card` opens an inline-card
frame (missing `href` is fatal); anything else is unconsumed. -/
def mediaAndInlineCardStartHandler (s : ADFBuilderState) (e : Element) : HandlerResult := do
  let topIsMedia :=
    match s.stack with
    | .mediaBlock _ _ _ :: _ => true
    | _ => false
  if topIsMedia then
    let mediaId := (attrGet e.attrs "data-media-id").getD ""
    let collection := (attrGet e.attrs "data-collection").getD ""
    let alt := attrGet e.attrs "alt"
    let style := attrGet e.attrs "style"
    let width := (style.bind (fun st => extractStyle st "width")).bind parsePx
    let height := (style.bind (fun st => extractStyle st "height")).bind parsePx
    if e.tag = "a" then
      match attrGet e.attrs "href" with
      | some href => do
          let node : MediaNode :=
            { attrs :=
                { alt := alt, collection := collection, id := mediaId
                  type_ := .link, width := width, height := height }
              marks := some [.link { href := href }] }
          let s ← pushMediaNodeToParent s node
          .ok (true, s)
      | none => .error "a tag should have href"
    else if e.tag = "img" then do
      let node : MediaNode :=
        { attrs :=
            { alt := alt, collection := collection, id := mediaId
              type_ := .file, width := width, height := height }
          marks := none }
      let s ← pushMediaNodeToParent s node
      .ok (true, s)
    else .error "Unknown media type"
  else if e.tag = "a" && attrHas e.attrs "data-inline-card" then
    if (attrGet e.attrs "href").isSome then
      let s := flushText s
      .ok (true, pushFrame s (.customBlock .inlineCard [] (collectAttrs e.attrs)))
    else .error "Inline card without href"
  else .ok (false, s)

/-- Mirror of `inline_card_end_handler`: only fires for `</a>` with an
inline-card frame on top (checked before popping). -/
def inlineCardEndHandler (s : ADFBuilderState) (e : Element) : HandlerResult := do
  if e.tag ≠ "a" then .ok (false, s)
  else
    match s.stack with
    | .customBlock .inlineCard _ attrs :: rest =>
        let s := { s with currentText := "", stack := rest }
        let href := (attrGet attrs "href").getD ""
        let s ← pushNodeToParent s (.inlineCard (some href))
        .ok (true, s)
    | _ => .ok (false, s)

/-! ## Dispatch (`ADFBuilder::new` and `process_token` in
`src/html_to_adf.rs`) -/

/-- Handler function type (`HandlerFn`). -/
abbrev Handler := ADFBuilderState → Element → HandlerResult

/-- The caller-installed custom start tier (`add_start_handler` calls in
`ADFBuilder::new`): `a` and `img` route through the media/inline-card
disambiguator. -/
def customStartHandlerFor (tag : String) : Option Handler :=
  if tag = "a" then some mediaAndInlineCardStartHandler
  else if tag = "img" then some mediaAndInlineCardStartHandler
  else none

/-- The caller-installed custom end tier: only `a`. -/
def customEndHandlerFor (tag : String) : Option Handler :=
  if tag = "a" then some inlineCardEndHandler
  else none

/-- The base start-handler registry built by `ADFBuilder::new`. -/
def baseStartHandlerFor (tag : String) : Option Handler :=
  if tag = "ul" then some ulStartHandler
  else if tag = "ol" then some olStartHandler
  else if tag = "li" then some liStartHandler
  else if tag = "p" then some pStartHandler
  else if tag = "pre" then some preStartHandler
  else if tag = "blockquote" then some blockquoteStartHandler
  else if tag = "em" then some emStartHandler
  else if tag = "strong" then some strongStartHandler
  else if tag = "del" then some delStartHandler
  else if tag = "a" then some aStartHandler
  else if tag = "u" then some uStartHandler
  else if tag = "sub" then some subStartHandler
  else if tag = "sup" then some supStartHandler
  else if tag = "h1" then some (headerStartHandler 1)
  else if tag = "h2" then some (headerStartHandler 2)
  else if tag = "h3" then some (headerStartHandler 3)
  else if tag = "h4" then some (headerStartHandler 4)
  else if tag = "h5" then some (headerStartHandler 5)
  else if tag = "h6" then some (headerStartHandler 6)
  else if tag = "table" then some tableStartHandler
  else if tag = "thead" then some tableSectionHandler
  else if tag = "tbody" then some tableSectionHandler
  else if tag = "tr" then some tableRowStartHandler
  else if tag = "th" then some tableHeaderStartHandler
  else if tag = "td" then some tableCellStartHandler
  else if tag = "br" then some hardBreakStartHandler
  else if tag = "hr" then some ruleStartHandler
  else if tag = "code" then some codeStartHandler
  else if tag = "div" then some divStartHandler
  else if tag = "span" then some spanStartHandler
  else if tag = "time" then some dateStartHandler
  else if tag = "details" then some detailsStartHandler
  else if tag = "figure" then some figureStartHandler
  else if tag = "adf-task-item" then some taskItemStartHandler
  else if tag = "adf-decision-item" then some decisionStartHandler
  else if tag = "adf-local-data" then some localDataStartHandler
  else if tag = "adf-status" then some statusStartHandler
  else if tag = "adf-emoji" then some emojiStartHandler
  else if tag = "adf-mention" then some mentionStartHandler
  else if tag = "adf-media-single" then some mediaSingleStartHandler
  else if tag = "adf-media-group" then some mediaGroupStartHandler
  else none

/-- The base end-handler registry built by `ADFBuilder::new` (`br`, `hr`,
`img`, `adf-task-item`, `adf-decision-item` and `adf-local-data` have no
end handlers). -/
def baseEndHandlerFor (tag : String) : Option Handler :=
  if tag = "ul" then some listEndHandler
  else if tag = "ol" then some listEndHandler
  else if tag = "li" then some liEndHandler
  else if tag = "p" then some blockEndHandler
  else if tag = "pre" then some blockEndHandler
  else if tag = "blockquote" then some blockEndHandler
  else if tag = "em" then some markEndHandler
  else if tag = "strong" then some markEndHandler
  else if tag = "del" then some markEndHandler
  else if tag = "a" then some markEndHandler
  else if tag = "u" then some markEndHandler
  else if tag = "sub" then some markEndHandler
  else if tag = "sup" then some markEndHandler
  else if tag = "h1" then some (headerEndHandler 1)
  else if tag = "h2" then some (headerEndHandler 2)
  else if tag = "h3" then some (headerEndHandler 3)
  else if tag = "h4" then some (headerEndHandler 4)
  else if tag = "h5" then some (headerEndHandler 5)
  else if tag = "h6" then some (headerEndHandler 6)
  else if tag = "table" then some tableEndHandler
  else if tag = "thead" then some tableSectionHandler
  else if tag = "tbody" then some tableSectionHandler
  else if tag = "tr" then some tableRowEndHandler
  else if tag = "th" then some tableHeaderEndHandler
  else if tag = "td" then some tableCellEndHandler
  else if tag = "code" then some codeEndHandler
  else if tag = "div" then some divEndHandler
  else if tag = "span" then some markEndHandler
  else if tag = "time" then some dateEndHandler
  else if tag = "details" then some detailsEndHandler
  else if tag = "figure" then some figureEndHandler
  else if tag = "summary" then some summaryEndHandler
  else if tag = "adf-status" then some statusEndHandler
  else if tag = "adf-emoji" then some emojiEndHandler
  else if tag = "adf-mention" then some mentionEndHandler
  else if tag = "adf-media-single" then some mediaSingleEndHandler
  else if tag = "adf-media-group" then some mediaGroupEndHandler
  else none

/-- One tokenizer event, as `TokenSink::process_token` receives it. -/
inductive HtmlToken where
  | startTag (e : Element)
  | endTag (e : Element)
  | chars (t : String)
  deriving DecidableEq, Repr

/-- Run the base tier for a tag, ignoring its consumed flag (as
`process_token` does). -/
def runBaseTier (lookup : String → Option Handler) (s : ADFBuilderState)
    (e : Element) : BuildM ADFBuilderState :=
  match lookup e.tag with
  | some h => do
      let (_, s') ← h s e
      .ok s'
  | none => .ok s

/-- Two-tier dispatch for one tag event: consult the custom tier first,
fall through to the base tier when it reports unconsumed. -/
def dispatchTag (customLookup baseLookup : String → Option Handler)
    (s : ADFBuilderState) (e : Element) : BuildM ADFBuilderState :=
  match customLookup e.tag with
  | some h => do
      let (consumed, s') ← h s e
      if consumed then .ok s' else runBaseTier baseLookup s' e
  | none => runBaseTier baseLookup s e

/-- Mirror of `TokenSink::process_token`: character data accumulates in
the pending text buffer; tag events go through the two-tier dispatch. -/
def processToken (s : ADFBuilderState) (tok : HtmlToken) : BuildM ADFBuilderState :=
  match tok with
  | .chars t => .ok { s with currentText := s.currentText ++ t }
  | .startTag e => dispatchTag customStartHandlerFor baseStartHandlerFor s e
  | .endTag e => dispatchTag customEndHandlerFor baseEndHandlerFor s e

/-- Feed a whole token stream into a builder state. -/
def processTokens (s : ADFBuilderState) (toks : List HtmlToken) : BuildM ADFBuilderState :=
  toks.foldlM processToken s

/-! ## HTML tokenizer model

The repository delegates tokenization to `html5ever`
(an external collaborator; the spec assumes standard HTML5 tokenization).
This model covers the fragment the renderer emits and the tests exercise:
tag names of ASCII letters, digits and dashes; attributes that are bare,
unquoted (terminated by whitespace or `>`) or double-quoted; a
self-closing `/` before `>`; end tags; and character runs between tags
(no entities or comments appear in that fragment). -/

/-- Characters allowed in tag and attribute names. -/
def isNameChar (c : Char) : Bool :=
  c.isAlphanum || c = '-'

/-- ASCII whitespace as the tokenizer sees it. -/
def isHtmlSpace (c : Char) : Bool :=
  c = ' ' || c = '\t' || c = '\n' || c = '\r'

/-- Take the longest prefix of name characters. -/
def takeName : List Char → (List Char × List Char)
  | [] => ([], [])
  | c :: cs =>
      if isNameChar c then
        let (nm, rest) := takeName cs
        (c :: nm, rest)
      else ([], c :: cs)

/-- Skip leading whitespace inside a tag. -/
def skipSpace : List Char → List Char
  | [] => []
  | c :: cs => if isHtmlSpace c then skipSpace cs else c :: cs

/-- Take characters up to (not including) a double quote. -/
def takeUntilQuote : List Char → (List Char × List Char)
  | [] => ([], [])
  | c :: cs =>
      if c = '"' then ([], cs)
      else
        let (v, rest) := takeUntilQuote cs
        (c :: v, rest)

/-- Take an unquoted attribute value: everything up to whitespace or
`>`. -/
def takeUnquoted : List Char → (List Char × List Char)
  | [] => ([], [])
  | c :: cs =>
      if isHtmlSpace c || c = '>' then ([], c :: cs)
      else
        let (v, rest) := takeUnquoted cs
        (c :: v, rest)

/-- Parse the attribute region of a start tag, returning the attributes,
the self-closing flag, and the remainder after `>`. -/
def parseAttrs : Nat → List Char → (AttrList × Bool × List Char)
  | 0, cs => ([], false, cs)
  | fuel + 1, cs =>
      match skipSpace cs with
      | [] => ([], false, [])
      | '>' :: rest => ([], false, rest)
      | '/' :: rest =>
          (match rest with
           | '>' :: rest' => ([], true, rest')
           | other =>
               let (attrs, sc, rem) := parseAttrs fuel other
               (attrs, sc, rem))
      | other =>
          let (nm, afterName) := takeName other
          if nm.isEmpty then
            -- Unexpected character: skip it to guarantee progress.
            match other with
            | [] => ([], false, [])
            | _ :: cs' =>
                let (attrs, sc, rem) := parseAttrs fuel cs'
                (attrs, sc, rem)
          else
            match afterName with
            | '=' :: afterEq =>
                (match afterEq with
                 | '"' :: inQuote =>
                     let (v, rest) := takeUntilQuote inQuote
                     let (attrs, sc, rem) := parseAttrs fuel rest
                     ((⟨nm⟩, (⟨v⟩ : String)) :: attrs, sc, rem)
                 | _ =>
                     let (v, rest) := takeUnquoted afterEq
                     let (attrs, sc, rem) := parseAttrs fuel rest
                     ((⟨nm⟩, (⟨v⟩ : String)) :: attrs, sc, rem))
            | _ =>
                let (attrs, sc, rem) := parseAttrs fuel afterName
                ((⟨nm⟩, "") :: attrs, sc, rem)

/-- Take a text run: everything up to the next `<`. -/
def takeText : List Char → (List Char × List Char)
  | [] => ([], [])
  | c :: cs =>
      if c = '<' then ([], c :: cs)
      else
        let (t, rest) := takeText cs
        (c :: t, rest)

/-- The tokenizer main loop, with fuel (each step consumes at least one
character, so the input length bounds the iterations). -/
def tokenizeAux : Nat → List Char → List HtmlToken
  | 0, _ => []
  | _ + 1, [] => []
  | fuel + 1, '<' :: '/' :: cs =>
      let (nm, rest) := takeName cs
      let rest :=
        match skipSpace rest with
        | '>' :: rest' => rest'
        | other => other
      .endTag { tag := ⟨nm⟩, attrs := [], selfClosing := false } :: tokenizeAux fuel rest
  | fuel + 1, '<' :: cs =>
      let (nm, afterName) := takeName cs
      if nm.isEmpty then
        -- A stray `<` not opening a tag: emit it as text.
        let (t, rest) := takeText cs
        .chars ⟨'<' :: t⟩ :: tokenizeAux fuel rest
      else
        let (attrs, sc, rest) := parseAttrs (afterName.length + 1) afterName
        .startTag { tag := ⟨nm⟩, attrs := attrs, selfClosing := sc } :: tokenizeAux fuel rest
  | fuel + 1, c :: cs =>
      let (t, rest) := takeText (c :: cs)
      match t with
      | [] => tokenizeAux fuel cs
      | _ => .chars ⟨t⟩ :: tokenizeAux fuel rest

/-- Tokenize an HTML string. -/
def tokenize (input : String) : List HtmlToken :=
  tokenizeAux (input.length + 1) input.data

/-- Mirror of the free function `html_to_adf`: tokenize, feed every token
into a fresh builder, and emit. -/
def htmlToAdf (input : String) : BuildM Adf := do
  let s ← processTokens initialState (tokenize input)
  emit s

/-! ## The HTML output buffer (`src/html_builder/mod.rs`)

The vendored `html_builder` writes open tags eagerly and close tags
lazily: any write at depth `d` first closes every still-open element
deeper than `d`.  A `Node` is just a depth; the buffer context carries the
written string, the stack of open tags, and the pending `>`/`/>` of the
most recently opened tag. -/

/-- Mirror of the buffer `Ctx`; the head of `stack` is the innermost open
tag. -/
structure RenderCtx where
  wtr : String
  stack : List (String × Bool)
  tagOpen : Option String

/-- Mirror of `Ctx::close_unclosed`. -/
def RenderCtx.closeUnclosed (ctx : RenderCtx) : RenderCtx :=
  match ctx.tagOpen with
  | some closer => { ctx with wtr := ctx.wtr ++ closer, tagOpen := none }
  | none => ctx

/-- Pop `n` open tags, writing end tags for the non-self-closing ones. -/
def RenderCtx.popTags : Nat → RenderCtx → RenderCtx
  | 0, ctx => ctx
  | n + 1, ctx =>
      match ctx.stack with
      | [] => ctx
      | (tag, selfClosing) :: rest =>
          let wtr := if selfClosing then ctx.wtr else ctx.wtr ++ "</" ++ tag ++ ">"
          RenderCtx.popTags n { ctx with wtr := wtr, stack := rest }

/-- Mirror of `Ctx::close_deeper_than`. -/
def RenderCtx.closeDeeperThan (ctx : RenderCtx) (depth : Nat) : RenderCtx :=
  let ctx := ctx.closeUnclosed
  ctx.popTags (ctx.stack.length - depth)

/-- Mirror of `Ctx::open`. -/
def RenderCtx.openTag (ctx : RenderCtx) (tag : String) (depth : Nat)
    (selfClosing : Bool) : RenderCtx :=
  let ctx := ctx.closeDeeperThan depth
  { ctx with
      wtr := ctx.wtr ++ "<" ++ tag
      tagOpen := some (if selfClosing then " />" else ">")
      stack := (tag, selfClosing) :: ctx.stack }

/-- Mirror of `Node::attr`. -/
def RenderCtx.attr (ctx : RenderCtx) (a : String) : RenderCtx :=
  if ctx.tagOpen.isSome then { ctx with wtr := ctx.wtr ++ " " ++ a } else ctx

/-- The default (`Normal`) escaping of text written into a node:
`html_escape::encode_text` replaces `&`, `<` and `>`. -/
def escapeText (s : String) : String :=
  String.join (s.data.map fun c =>
    if c = '&' then "&amp;"
    else if c = '<' then "&lt;"
    else if c = '>' then "&gt;"
    else String.singleton c)

/-- Mirror of the `Write` impl for `Node`. -/
def RenderCtx.writeText (ctx : RenderCtx) (depth : Nat) (s : String) : RenderCtx :=
  let ctx := ctx.closeDeeperThan depth
  { ctx with wtr := ctx.wtr ++ escapeText s }

/-- Mirror of `Buffer::finish`. -/
def RenderCtx.finish (ctx : RenderCtx) : String :=
  (ctx.closeDeeperThan 0).wtr

/-- Fresh buffer (`Buffer::new`). -/
def RenderCtx.empty : RenderCtx :=
  { wtr := "", stack := [], tagOpen := none }

/-! ## The renderer (`src/adf_to_html.rs`)

Ported against the merged node model it is written in.  A Rust `Node`
value is represented by its depth; `node.p()` etc. open a child at the
node's depth, and the child writes at depth + 1.  The helper methods come
from the vendored crate's missing `html.rs`; all tags used here are
ordinary children except `br` and `hr`, which are void elements.
Recursion is fuelled; the fuel strictly exceeds the node count of every
document the theorems mention, and exhaustion leaves the buffer
unchanged. -/

/-- Serde serialization of the optional user type
(`serde_json::to_string`). -/
def serdeUserTypeJson : Option UserType → String
  | some .default => "\"DEFAULT\""
  | some .special => "\"SPECIAL\""
  | some .app => "\"APP\""
  | none => "null"

/-- Serde serialization of the optional access level. -/
def serdeAccessLevelJson : Option AccessLevel → String
  | some .none_ => "\"NONE\""
  | some .site => "\"SITE\""
  | some .application => "\"APPLICATION\""
  | none => "null"

/-- Modelled from the spec: chrono's millisecond-timestamp-to-RFC3339
formatting used only when rendering Date nodes (an external collaborator);
no claim renders a Date node, so the formatting is left abstract. -/
def rfc3339FromTimestampMillis (_ms : Int) : String := ""

/-- The `apply_marks` helper of the Text arm: wrap the text in one element
per mark, innermost last, then write the text. -/
def applyMarks : List AdfMark → Nat → String → RenderCtx → RenderCtx
  | [], depth, txt, ctx => ctx.writeText depth txt
  | first :: rest, depth, txt, ctx =>
      let ctx :=
        match first with
        | .strong => ctx.openTag "strong" depth false
        | .em => ctx.openTag "em" depth false
        | .code => ctx.openTag "code" depth false
        | .link mark => (ctx.openTag "a" depth false).attr ("href=" ++ mark.href)
        | .strike => ctx.openTag "del" depth false
        | .subsup .sup => ctx.openTag "sup" depth false
        | .subsup .sub => ctx.openTag "sub" depth false
        | .underline => (ctx.openTag "span" depth false).attr "style=text-decoration:underline"
        | .textColor color =>
            (ctx.openTag "span" depth false).attr ("style=\"color: " ++ color ++ "\"")
        | .backgroundColor color =>
            (ctx.openTag "span" depth false).attr ("style=\"background-color: " ++ color ++ "\"")
      applyMarks rest (depth + 1) txt ctx

/-- Mirror of `media_adf_to_html`. -/
def mediaAdfToHtml (depth : Nat) (entries : List MediaNode) (ctx : RenderCtx) : RenderCtx :=
  entries.foldl (fun ctx mediaNode =>
    let link := (mediaNode.marks.getD []).findSome? fun mark =>
      match mark with
      | .link l => some l
      | _ => none
    match mediaNode.attrs.type_ with
    | .file =>
        let attrs : List String :=
          (match link with
           | some l => ["src=\"" ++ l.href ++ "\""]
           | none => []) ++
          ["data-collection=\"" ++ mediaNode.attrs.collection ++ "\""] ++
          ["data-media-id=\"" ++ mediaNode.attrs.id ++ "\""] ++
          (match mediaNode.attrs.alt with
           | some alt => ["alt=\"" ++ alt ++ "\""]
           | none => [])
        let styles : List String :=
          (match mediaNode.attrs.width with
           | some w => ["width: " ++ natToString w ++ "px"]
           | none => []) ++
          (match mediaNode.attrs.height with
           | some h => ["height: " ++ natToString h ++ "px"]
           | none => [])
        let attrs :=
          if styles.isEmpty then attrs
          else attrs ++ ["style=\"" ++ strIntercalate "; " styles ++ "\""]
        (ctx.openTag "img" depth false).attr (strIntercalate " " attrs)
    | .link =>
        match link with
        | some l =>
            let ctx := (ctx.openTag "a" depth false).attr ("href=\"" ++ l.href ++ "\"")
            match l.title with
            | some title => ctx.writeText (depth + 1) title
            | none => ctx.writeText (depth + 1) l.href
        | none => ctx) ctx

mutual

/-- Mirror of `inner_adf_to_html` (the inline/item arm). -/
def innerAdfToHtml : Nat → Nat → List Adf → RenderCtx → RenderCtx
  | 0, _, _, ctx => ctx
  | _ + 1, _, [], ctx => ctx
  | fuel + 1, depth, node :: rest, ctx =>
      let ctx :=
        match node with
        | .date timestamp =>
            let tsMs := (strToInt? timestamp).getD 0
            let dateStr := rfc3339FromTimestampMillis tsMs
            let ctx := (ctx.openTag "time" depth false).attr ("datetime=\"" ++ dateStr ++ "\"")
            ctx.writeText (depth + 1) dateStr
        | .emoji attrs =>
            let ctx := (ctx.openTag "adf-emoji" depth false).attr
              ("aria-alt=\"" ++ attrs.shortName ++ "\"")
            ctx.writeText (depth + 1) (attrs.text.getD attrs.shortName)
        | .hardBreak => ctx.openTag "br" depth true
        | .inlineCard url =>
            match url with
            | some u =>
                let ctx := (ctx.openTag "a" depth false).attr ("href=" ++ u)
                let ctx := (((ctx.attr "data-inline-card=\"true\"").attr
                  "target=\"_blank\"").attr "rel=\"noopener noreferrer\"")
                ctx.writeText (depth + 1) "External Link"
            | none => ctx
        | .listItem content =>
            let ctx := ctx.openTag "li" depth false
            innerBlockAdfToHtml fuel (depth + 1) content ctx
        | .mention attrs =>
            let ctx := (ctx.openTag "adf-mention" depth false).attr
              ("data-mention-id=\"" ++ attrs.id ++ "\"")
            let ctx := ctx.attr ("data-user-type=" ++ serdeUserTypeJson attrs.userType)
            let ctx := ctx.attr ("data-access-level=" ++ serdeAccessLevelJson attrs.accessLevel)
            match attrs.text with
            | some txt => ctx.writeText (depth + 1) txt
            | none => ctx
        | .status attrs =>
            let ctx := (ctx.openTag "adf-status" depth false).attr
              ("style=\"background-color: " ++ attrs.color ++ "\" aria-label=\"" ++
                attrs.localId.getD "" ++ "\"")
            ctx.writeText (depth + 1) attrs.text
        | .tableCell _ content =>
            let ctx := ctx.openTag "td" depth false
            innerBlockAdfToHtml fuel (depth + 1) content ctx
        | .tableHeader _ content =>
            let ctx := ctx.openTag "th" depth false
            innerBlockAdfToHtml fuel (depth + 1) content ctx
        | .tableRow content =>
            let ctx := ctx.openTag "tr" depth false
            innerAdfToHtml fuel (depth + 1) content ctx
        | .text txt marks => applyMarks (marks.getD []) depth txt ctx
        | .taskItem content attrs =>
            let ctx := ctx.openTag "li" depth false
            let checked := if attrs.state = .done then "checked" else ""
            let ctx := ((ctx.openTag "adf-task-item" (depth + 1) false).attr
              ("id=\"" ++ attrs.localId ++ "\" type=checkbox " ++ checked))
            innerBlockAdfToHtml fuel (depth + 1) content ctx
        | .decisionItem content localId =>
            let ctx := ctx.openTag "li" depth false
            let ctx := (ctx.openTag "adf-decision-item" (depth + 1) false).attr
              ("id=\"" ++ localId ++ "\"")
            innerBlockAdfToHtml fuel (depth + 2) content ctx
        | _ => ctx
      innerAdfToHtml fuel depth rest ctx
termination_by structural fuel => fuel

/-- Mirror of `inner_block_adf_to_html` (the block arm). -/
def innerBlockAdfToHtml : Nat → Nat → List Adf → RenderCtx → RenderCtx
  | 0, _, _, ctx => ctx
  | _ + 1, _, [], ctx => ctx
  | fuel + 1, depth, node :: rest, ctx =>
      let ctx :=
        match node with
        | .blockquote content =>
            let ctx := ctx.openTag "blockquote" depth false
            innerBlockAdfToHtml fuel (depth + 1) content ctx
        | .bulletList content =>
            let ctx := ctx.openTag "ul" depth false
            innerAdfToHtml fuel (depth + 1) content ctx
        | .codeBlock attrs content =>
            let ctx := ctx.openTag "pre" depth false
            let ctx := ctx.openTag "code" (depth + 1) false
            let ctx :=
              match attrs with
              | some cbAttrs =>
                  match cbAttrs.language with
                  | some language => ctx.attr ("class=\"language-" ++ language ++ "\"")
                  | none => ctx
              | none => ctx
            match content with
            | some c => innerAdfToHtml fuel (depth + 2) c ctx
            | none => ctx
        | .doc content _ =>
            let ctx := ctx.openTag "div" depth false
            innerBlockAdfToHtml fuel (depth + 1) content ctx
        | .expand content attrs =>
            let ctx := ctx.openTag "details" depth false
            let ctx :=
              match attrs.title with
              | some title =>
                  (ctx.openTag "summary" (depth + 1) false).writeText (depth + 2) title
              | none => ctx
            innerBlockAdfToHtml fuel (depth + 1) content ctx
        | .heading level content =>
            let tag :=
              match level with
              | 1 => "h1"
              | 2 => "h2"
              | 3 => "h3"
              | 4 => "h4"
              | 5 => "h5"
              | 6 => "h6"
              | _ => "h6"
            let ctx := ctx.openTag tag depth false
            match content with
            | some c => innerAdfToHtml fuel (depth + 1) c ctx
            | none => ctx
        | .mediaGroup content =>
            let ctx := ctx.openTag "adf-media-group" depth false
            mediaAdfToHtml (depth + 1) content ctx
        | .mediaSingle layout content =>
            let ctx := (ctx.openTag "adf-media-single" depth false).attr
              ("data-layout=\"" ++ layout ++ "\"")
            mediaAdfToHtml (depth + 1) content ctx
        | .nestedExpand title content =>
            let ctx := (ctx.openTag "details" depth false).attr "data-nested=\"true\""
            let ctx := (ctx.openTag "summary" (depth + 1) false).writeText (depth + 2) title
            innerBlockAdfToHtml fuel (depth + 1) content ctx
        | .orderedList _ content =>
            let ctx := ctx.openTag "ol" depth false
            innerAdfToHtml fuel (depth + 1) content ctx
        | .panel panelType content =>
            let ctx := (ctx.openTag "figure" depth false).attr
              ("data-panel-type=\"" ++ panelType ++ "\"")
            innerBlockAdfToHtml fuel (depth + 1) content ctx
        | .paragraph content =>
            let ctx := ctx.openTag "p" depth false
            match content with
            | some c => innerAdfToHtml fuel (depth + 1) c ctx
            | none => ctx
        | .rule => ctx.openTag "hr" depth true
        | .table _ content =>
            let ctx := ctx.openTag "table" depth false
            let headerRows := content.filter fun row =>
              match row with
              | .tableRow rowContent =>
                  rowContent.any fun n =>
                    match n with
                    | .tableHeader _ _ => true
                    | _ => false
              | _ => false
            let bodyRows := content.filter fun row =>
              match row with
              | .tableRow rowContent =>
                  ¬ rowContent.any fun n =>
                    match n with
                    | .tableHeader _ _ => true
                    | _ => false
              | _ => false
            let ctx :=
              if headerRows.isEmpty then ctx
              else
                let ctx := ctx.openTag "thead" (depth + 1) false
                headerRows.foldl (fun ctx row =>
                  match row with
                  | .tableRow rowContent =>
                      let ctx := ctx.openTag "tr" (depth + 2) false
                      innerAdfToHtml fuel (depth + 3) rowContent ctx
                  | _ => ctx) ctx
            if bodyRows.isEmpty then ctx
            else
              let ctx := ctx.openTag "tbody" (depth + 1) false
              bodyRows.foldl (fun ctx row =>
                match row with
                | .tableRow rowContent =>
                    let ctx := ctx.openTag "tr" (depth + 2) false
                    innerAdfToHtml fuel (depth + 3) rowContent ctx
                | _ => ctx) ctx
        | .taskList localId content =>
            let ctx := ((ctx.openTag "adf-local-data" depth false).attr
              "data-tag=\"task-list\"").attr ("id=\"" ++ localId ++ "\"")
            let ctx := ctx.openTag "ul" depth false
            innerAdfToHtml fuel (depth + 1) content ctx
        | .decisionList content localId =>
            let ctx := ((ctx.openTag "adf-local-data" depth false).attr
              "data-tag=\"decision-list\"").attr ("id=\"" ++ localId ++ "\"")
            let ctx := ctx.openTag "ul" depth false
            innerAdfToHtml fuel (depth + 1) content ctx
        | _ => ctx
      innerBlockAdfToHtml fuel depth rest ctx
termination_by structural fuel => fuel

end

/-- Fuel for the renderer; far larger than the node count of any document
appearing in the theorems below. -/
def renderFuel : Nat := 10000

/-- Mirror of the free function `adf_to_html` (the diagnostics label
argument is dropped): render into a `<body>` element and finish the
buffer. -/
def adfToHtml (adf : List Adf) : String :=
  let ctx := RenderCtx.empty.openTag "body" 0 false
  (innerBlockAdfToHtml renderFuel 1 adf ctx).finish

/-- The full round trip: render, then parse back. -/
def adfRoundtrip (adf : List Adf) : BuildM Adf :=
  htmlToAdf (adfToHtml adf)

/-! ## Concrete documents: the shapes enumerated in §8 of the spec -/

/-- A plain paragraph with a text run. -/
def sec8Paragraph : Adf := .paragraph (some [.text "Simple text" none])

/-- Headings of levels 1 through 6. -/
def sec8Headings : List Adf :=
  [.heading 1 (some [.text "T1" none]), .heading 2 (some [.text "T2" none]),
   .heading 3 (some [.text "T3" none]), .heading 4 (some [.text "T4" none]),
   .heading 5 (some [.text "T5" none]), .heading 6 (some [.text "T6" none])]

/-- Nested bullet and ordered lists (list-in-list). -/
def sec8NestedLists : Adf :=
  .bulletList
    [.listItem [.paragraph (some [.text "Item 1" none]),
      .orderedList none [.listItem [.paragraph (some [.text "Sub 1" none])],
                         .listItem [.paragraph (some [.text "Sub 2" none])]]],
     .listItem [.paragraph (some [.text "Item 2" none])]]

/-- A table with a header row and a data row with one empty cell. -/
def sec8Table : Adf :=
  .table none
    [.tableRow [.tableHeader none [.paragraph (some [.text "H1" none])],
                .tableHeader none [.paragraph (some [.text "H2" none])]],
     .tableRow [.tableCell none [.paragraph (some [.text "C1" none])],
                .tableCell none []]]

/-- A blockquote containing a nested ordered list and a code block. -/
def sec8Blockquote : Adf :=
  .blockquote
    [.paragraph (some [.text "Intro quote" none]),
     .orderedList none [.listItem [.paragraph (some [.text "List item 1" none])],
                        .listItem [.paragraph (some [.text "List item 2" none])]],
     .codeBlock none (some [.text "let x = 10;\n" none])]

/-- An expand with a title. -/
def sec8Expand : Adf :=
  .expand [.paragraph (some [.text "Hidden details." none])] { title := some "See more" }

/-- A nested-expand with a title. -/
def sec8NestedExpand : Adf :=
  .nestedExpand "Nested Title" [.paragraph (some [.text "Nested content" none])]

/-- A media-group with alt metadata. -/
def sec8MediaGroup : Adf :=
  .mediaGroup
    [{ attrs := { alt := some "Diagram", collection := "collection", id := "media-id", type_ := .file } }]

/-- A media-single with width/height/alt metadata. -/
def sec8MediaSingle : Adf :=
  .mediaSingle "center"
    [{ attrs := { alt := some "pants.png", collection := "col", id := "m1", type_ := .file, width := some 659, height := some 291 } }]

/-- A status chip and an emoji inline in the same paragraph. -/
def sec8StatusEmoji : Adf :=
  .paragraph (some
    [.status { text := "Done", color := "green", localId := some "status-1" },
     .emoji { shortName := ":smile:", text := some "SM" }])

/-- A mention with optional access-level and user-type present. -/
def sec8MentionFull : Adf :=
  .paragraph (some
    [.mention { id := "user-1", text := some "Mentioned User", userType := some .app, accessLevel := some .site }])

/-- A mention without the optional access-level and user-type. -/
def sec8MentionBare : Adf :=
  .paragraph (some
    [.mention { id := "user-2", text := some "U2", userType := none, accessLevel := none }])

/-- Mixed inline marks: strong+em on one run, link+strike on another. -/
def sec8Marks : Adf :=
  .paragraph (some
    [.text "bolditalic" (some [.strong, .em]),
     .text "linkstrike" (some [.link { href := "https://example.com" }, .strike])])

/-- A task list with one todo and one done item. -/
def sec8TaskList : Adf :=
  .taskList "task-list-1"
    [.taskItem [.paragraph (some [.text "Task item" none])] { localId := "item-1", state := .todo },
     .taskItem [.paragraph (some [.text "Task 2" none])] { localId := "item-2", state := .done }]

/-- A decision list with one item. -/
def sec8DecisionList : Adf :=
  .decisionList [.decisionItem [.paragraph (some [.text "Decision content" none])] "item-1"]
    "decision-list-1"

/-! ## Observations used by refutations (keep statements decidable without
a `DecidableEq` instance on the nested `Adf` type) -/

/-- Number of children of the top pending paragraph frame. -/
def topParagraphLen : List BlockContext → Nat
  | .paragraph nodes :: _ => nodes.length
  | _ => 0

/-- Accumulated lines of the top code-block frame. -/
def topCodeLines : List BlockContext → List String
  | .codeBlock lines :: _ => lines
  | _ => []

/-- Number of top-level children of an emitted document. -/
def docTopLen : BuildM Adf → Nat
  | .ok (.doc content _) => content.length
  | _ => 0

/-- Whether the result is a document whose first child is an expand whose
first child is a paragraph. -/
def firstChildExpandHoldsParagraph : BuildM Adf → Bool
  | .ok (.doc (.expand (.paragraph _ :: _) _ :: _) _) => true
  | _ => false

/-- The concrete pre-migration builder state for the C5 witness. -/
def c5WitnessState : ADFBuilderState :=
  { initialState with stack :=
      [.listItem [.paragraph (some [.text "pre" none])], .pendingList [] false none none,
       .document []] }

/-- The concrete checkbox element for the C5 witness. -/
def c5WitnessElem : Element :=
  { tag := "adf-task-item", attrs := [("id", "i1"), ("type", "checkbox"), ("checked", "")],
    selfClosing := false }

/-- The state used by the C7 and C9 refutations: an open paragraph over
the document root. -/
def paraTopState : ADFBuilderState :=
  { initialState with stack := [.paragraph [], .document []] }

/-- The code-block state with a whitespace-only pending chunk used by the
C8 refutation. -/
def c8BlankCodeState : ADFBuilderState :=
  { initialState with stack := [.codeBlock [], .document []], currentText := "  " }

/-- The span element (style with neither color nor background-color) used
by the C9 refutation. -/
def c9SpanElem : Element :=
  { tag := "span", attrs := [("style", "font-weight: bold")], selfClosing := false }

/-! ## Specification-side definitions for claim statements -/

/-- Children list of the frame kinds that may receive a closing
pending-list (document, div custom block, blockquote, table cell/header,
list item); `none` for every other frame kind. -/
def blockChildren : BlockContext → Option (List Adf)
  | .document ns => some ns
  | .customBlock .div ns _ => some ns
  | .blockquote ns => some ns
  | .tableBlockCell ns => some ns
  | .tableBlockHeader ns => some ns
  | .listItem ns => some ns
  | _ => none

/-- Replace the children list of such a frame. -/
def withBlockChildren : BlockContext → List Adf → BlockContext
  | .document _, ns => .document ns
  | .customBlock .div _ attrs, ns => .customBlock .div ns attrs
  | .blockquote _, ns => .blockquote ns
  | .tableBlockCell _, ns => .tableBlockCell ns
  | .tableBlockHeader _, ns => .tableBlockHeader ns
  | .listItem _, ns => .listItem ns
  | f, _ => f

/-- Restatement of the spec's list-container-end rule (§4.3), for
comparison with `closeFrameInto`: the single node a closing pending-list
contributes, chosen from the local-tag and ordered flag, with the
accumulated items filtered to the subtype matching the chosen kind. -/
def specListNodeFor (items : List ListItemTy) (ordered : Bool)
    (localId localTag : Option String) : Adf :=
  if localTag = some "task-list" then
    .taskList (localId.getD "")
      (items.filterMap fun item =>
        match item with
        | .taskItem content attrs => some (.taskItem content attrs)
        | _ => none)
  else if localTag = some "decision-list" then
    .decisionList
      (items.filterMap fun item =>
        match item with
        | .decisionItem content lid => some (.decisionItem content lid)
        | _ => none)
      (localId.getD "")
  else if ordered then
    .orderedList none
      (items.filterMap fun item =>
        match item with
        | .listItem content => some (.listItem content)
        | _ => none)
  else
    .bulletList
      (items.filterMap fun item =>
        match item with
        | .listItem content => some (.listItem content)
        | _ => none)

/-- The stack half of the §3 invariant: nonempty with the Document frame
at the bottom. -/
def stackBD : List BlockContext → Prop
  | [] => False
  | [f] =>
      match f with
      | .document _ => True
      | _ => False
  | _ :: rest => stackBD rest

/-- The builder-state invariant of §3: the stack always contains at least
one frame and its bottom frame is the Document frame. -/
def BottomDoc (s : ADFBuilderState) : Prop := stackBD s.stack

/-- The end tags whose handlers pop the top frame unconditionally and
swallow a mismatch without a fault. -/
def unsafeEndTags : List String :=
  ["table", "time", "details", "figure", "adf-mention", "adf-media-single", "adf-media-group"]

/-- Tokens other than the unconditionally-popping end tags. -/
def SafeToken : HtmlToken → Prop
  | .endTag e => e.tag ∉ unsafeEndTags
  | _ => True

/-- A handler that preserves the bottom-document invariant on every
non-panicking run. -/
def PreservesBD (h : Handler) : Prop :=
  ∀ s e b s', BottomDoc s → h s e = .ok (b, s') → BottomDoc s'

/-- The state after `<p>` on the initial state (used to witness the safe-token
preservation statement at a concrete input). -/
def c2WitnessState : ADFBuilderState :=
  { initialState with stack := [.paragraph [], .document []] }

/-! ## Claims -/

/-- C1 — counterexample.  The round trip `parse(render(T)) == T` fails on
one of the very shapes the claim enumerates: rendering a §8 task list and
parsing the result back aborts with the structural fault
`Invalid parent for Paragraph` (the paragraph inside the migrated
task-item frame has no legal parent in `close_current_block`), and the
same happens for the §8 decision list; a document holding an empty
paragraph also fails the round trip because the parser drops empty
paragraphs. -/
theorem c1_roundtrip_counterexample :
    adfRoundtrip [sec8TaskList] = .error "Invalid parent for Paragraph" ∧
    adfRoundtrip [sec8TaskList] ≠ .ok (.doc [sec8TaskList] 1) ∧
    adfRoundtrip [sec8DecisionList] = .error "Invalid parent for Paragraph" ∧
    adfRoundtrip [.paragraph (some [])] = .ok (.doc [] 1) ∧
    adfRoundtrip [.paragraph (some [])] ≠ .ok (.doc [.paragraph (some [])] 1) := by
  refine ⟨rfl, ?_, rfl, rfl, ?_⟩
  · intro h
    have h' : (Except.error "Invalid parent for Paragraph" : BuildM Adf) =
        .ok (.doc [sec8TaskList] 1) := by
      rw [← h]; rfl
    exact Except.noConfusion h'
  · intro h
    have h' := congrArg docTopLen h
    have ha : docTopLen (adfRoundtrip [.paragraph (some [])]) = 0 := by rfl
    have hb : docTopLen (.ok (.doc [.paragraph (some [])] 1)) = 1 := by rfl
    rw [ha, hb] at h'
    exact absurd h' (by decide)

/-- C1 — amended claim.  `parse(render(T)) == T` holds for the §8 shapes
other than task and decision lists: a paragraph with text, headings 1–6,
nested lists, a table with an empty cell, a blockquote with a nested
ordered list and a code block, expand and nested-expand with titles, a
media-group and a media-single with width/height/alt metadata, a status
chip and an emoji in one paragraph, mentions with and without the optional
metadata, and stacked marks (strong+em, link+strike). -/
theorem c1_roundtrip_section8_amended :
    adfRoundtrip [sec8Paragraph] = .ok (.doc [sec8Paragraph] 1) ∧
    adfRoundtrip sec8Headings = .ok (.doc sec8Headings 1) ∧
    adfRoundtrip [sec8NestedLists] = .ok (.doc [sec8NestedLists] 1) ∧
    adfRoundtrip [sec8Table] = .ok (.doc [sec8Table] 1) ∧
    adfRoundtrip [sec8Blockquote] = .ok (.doc [sec8Blockquote] 1) ∧
    adfRoundtrip [sec8Expand] = .ok (.doc [sec8Expand] 1) ∧
    adfRoundtrip [sec8NestedExpand] = .ok (.doc [sec8NestedExpand] 1) ∧
    adfRoundtrip [sec8MediaGroup] = .ok (.doc [sec8MediaGroup] 1) ∧
    adfRoundtrip [sec8MediaSingle] = .ok (.doc [sec8MediaSingle] 1) ∧
    adfRoundtrip [sec8StatusEmoji] = .ok (.doc [sec8StatusEmoji] 1) ∧
    adfRoundtrip [sec8MentionFull] = .ok (.doc [sec8MentionFull] 1) ∧
    adfRoundtrip [sec8MentionBare] = .ok (.doc [sec8MentionBare] 1) ∧
    adfRoundtrip [sec8Marks] = .ok (.doc [sec8Marks] 1) :=
  ⟨rfl, rfl, rfl, rfl, rfl, rfl, rfl, rfl, rfl, rfl, rfl, rfl, rfl⟩

/-- C6 — confirmed.  `<p>Before</p><hr/><p>After</p>` parses to exactly a
Paragraph, a Rule and a Paragraph as top-level siblings; the Rule is not
nested inside either paragraph. -/
theorem c6_hr_three_siblings :
    htmlToAdf "<p>Before</p><hr/><p>After</p>" =
      .ok (.doc [.paragraph (some [.text "Before" none]), .rule,
                 .paragraph (some [.text "After" none])] 1) := by
  rfl

/-- C4 — counterexample.  In the HTML builder, opening `<code>` while
strong and em are active does *not* clear them: the run inside the code
span is stamped `[strong, em, code]`, not `[code]`, and after the code
span closes `em` is still active (it never left). -/
theorem c4_code_mark_counterexample :
    htmlToAdf "<p><strong><em>a<code>b</code></em></strong></p>" =
      .ok (.doc [.paragraph (some
        [.text "a" (some [.strong, .em]),
         .text "b" (some [.strong, .em, .code])])] 1) ∧
    ([AdfMark.strong, .em, .code] ≠ [AdfMark.code]) :=
  ⟨rfl, by decide⟩

/-- C4 — amended claim.  The claimed exclusivity is the behavior of
`MarkAction::apply_to` (defined in `adf_types.rs` but not used by the
HTML builder path, whose `code_start_handler` merely pushes the mark):
adding a code mark to a set not already containing one replaces the whole
set by `[code]`, and after removing the code mark and adding strong the
set is exactly `[strong]` — `em` is not resurrected. -/
theorem c4_mark_action_exclusivity (ms : List AdfMark) (h : AdfMark.code ∉ ms) :
    (MarkAction.add .code).applyTo ms = [.code] ∧
    (MarkAction.add .strong).applyTo
      ((MarkAction.remove .code).applyTo ((MarkAction.add .code).applyTo ms)) = [.strong] := by
  constructor
  · simp [MarkAction.applyTo, h]
  · simp [MarkAction.applyTo, h]

/-- Witness for the C4 amended theorem at the concrete mark set
`[strong, em]`. -/
theorem c4_mark_action_exclusivity_witness :
    (MarkAction.add .code).applyTo [.strong, .em] = [.code] ∧
    (MarkAction.add .strong).applyTo
      ((MarkAction.remove .code).applyTo ((MarkAction.add .code).applyTo [.strong, .em])) = [.strong] :=
  c4_mark_action_exclusivity [.strong, .em] (by decide)

/-- C5 — confirmed.  With an open list-item frame on top, an
`adf-task-item` start migrates it into a task-item frame carrying the
accumulated children, state Done exactly when `checked` is present and
Todo otherwise, and the local-id from the `id` attribute; a `type`
attribute value other than `checkbox` (compared ASCII-case-insensitively),
or a missing `type`, aborts the conversion. -/
theorem c5_task_item_migration (s : ADFBuilderState) (e : Element)
    (inner : List Adf) (rest : List BlockContext)
    (hstack : s.stack = .listItem inner :: rest) :
    (∀ t, attrGet e.attrs "type" = some t → eqIgnoreAsciiCase t "checkbox" = true →
      taskItemStartHandler s e =
        .ok (true, { s with stack := .taskItem inner (if attrHas e.attrs "checked" then .done else .todo) ((attrGet e.attrs "id").getD "") :: rest })) ∧
    (∀ t, attrGet e.attrs "type" = some t → eqIgnoreAsciiCase t "checkbox" = false →
      taskItemStartHandler s e = .error "Unsupported type attribute for task item") ∧
    (attrGet e.attrs "type" = none →
      taskItemStartHandler s e = .error "No type attribute found for task item") := by
  have hli : (s.stack.any fun f =>
      match f with
      | .listItem _ => true
      | _ => false) = true := by
    rw [hstack]; simp [List.any]
  have hpop : popToListItem s.stack = .ok (inner, rest) := by
    rw [hstack]; rfl
  refine ⟨?_, ?_, ?_⟩
  · intro t ht hcheck
    simp only [taskItemStartHandler, hli, hpop, ht, hcheck]
    rfl
  · intro t ht hcheck
    simp only [taskItemStartHandler, hli, hpop, ht, hcheck]
    rfl
  · intro ht
    simp only [taskItemStartHandler, hli, hpop, ht]
    rfl

/-- Witness for C5 at a concrete builder state and checked checkbox
element. -/
theorem c5_task_item_migration_witness :
    taskItemStartHandler c5WitnessState c5WitnessElem =
      .ok (true,
        { c5WitnessState with stack :=
            [.taskItem [.paragraph (some [.text "pre" none])] .done "i1",
             .pendingList [] false none none, .document []] }) := by
  have h := (c5_task_item_migration c5WitnessState c5WitnessElem
    [.paragraph (some [.text "pre" none])]
    [.pendingList [] false none none, .document []] rfl).1 "checkbox" rfl rfl
  exact h

/-- C7 — counterexample.  Actually flushing twice is *not* the same as
flushing the concatenation once: two chunks flushed separately leave two
text nodes in the paragraph frame, the concatenation flushed once leaves
one, so the frame contents differ. -/
theorem c7_double_flush_counterexample :
    topParagraphLen (flushText { flushText { paraTopState with currentText := "foo" } with
        currentText := "bar" }).stack = 2 ∧
    topParagraphLen (flushText { paraTopState with currentText := "foobar" }).stack = 1 ∧
    (flushText { flushText { paraTopState with currentText := "foo" } with
        currentText := "bar" }).stack ≠
      (flushText { paraTopState with currentText := "foobar" }).stack := by
  refine ⟨rfl, rfl, ?_⟩
  intro h
  have h' := congrArg topParagraphLen h
  have ha : topParagraphLen (flushText { flushText { paraTopState with currentText := "foo" } with
      currentText := "bar" }).stack = 2 := rfl
  have hb : topParagraphLen (flushText { paraTopState with currentText := "foobar" }).stack = 1 := rfl
  rw [ha, hb] at h'
  exact absurd h' (by decide)

/-- C7 — amended claim.  What is equivalent to processing the
concatenation is processing two *adjacent character-data chunks* (which
merely append to the pending buffer) — the flush itself happens at most
once, at the next tag boundary. -/
theorem c7_adjacent_chunks_amended (s : ADFBuilderState) (a b : String) :
    (processToken s (.chars a) >>= fun s1 => processToken s1 (.chars b)) =
      processToken s (.chars (a ++ b)) := by
  have assoc : s.currentText ++ a ++ b = s.currentText ++ (a ++ b) := by
    cases s.currentText with
    | mk cs =>
      cases a with
      | mk as =>
        cases b with
        | mk bs =>
          show String.mk ((cs ++ as) ++ bs) = String.mk (cs ++ (as ++ bs))
          rw [List.append_assoc]
  simp only [processToken]
  show Except.ok _ = Except.ok _
  rw [assoc]

/-- C8 — counterexample.  A whitespace-only character chunk inside a code
block is *not* preserved: the flush guard `text.trim().is_empty()` fires
in every context, code blocks included, so the chunk is discarded and the
code-block frame keeps no line for it. -/
theorem c8_code_block_blank_counterexample :
    topCodeLines (flushText c8BlankCodeState).stack = [] ∧
    (([] : List String) ≠ ["  "]) ∧
    (flushText c8BlankCodeState).currentText = "" :=
  ⟨rfl, by decide, rfl⟩

/-- C8 — amended claim.  Inside a code block, a chunk with at least one
non-whitespace character is preserved verbatim (no trimming at all); a
chunk that is entirely whitespace is discarded — in code blocks just as
everywhere else; in a paragraph context the newline-adjacent surrounding
whitespace is trimmed via `clean_surrounding_text` before the text run is
stored. -/
theorem c8_flush_trimming_amended :
    (∀ (ls : List String) (rest : List BlockContext) (txt : String) (ms : List AdfMark)
        (cbi : Option LocalId) (cbt : Option String),
      txt.isEmpty = false → (strTrim txt).isEmpty = false →
      flushText { stack := .codeBlock ls :: rest, markStack := ms, currentText := txt,
                  customBlockId := cbi, customBlockTag := cbt } =
        { stack := .codeBlock (ls ++ [txt]) :: rest, markStack := ms, currentText := "",
          customBlockId := cbi, customBlockTag := cbt }) ∧
    (∀ (ls : List String) (rest : List BlockContext) (txt : String) (ms : List AdfMark)
        (cbi : Option LocalId) (cbt : Option String),
      txt.isEmpty = false → (strTrim txt).isEmpty = true →
      flushText { stack := .codeBlock ls :: rest, markStack := ms, currentText := txt,
                  customBlockId := cbi, customBlockTag := cbt } =
        { stack := .codeBlock ls :: rest, markStack := ms, currentText := "",
          customBlockId := cbi, customBlockTag := cbt }) ∧
    (∀ (ns : List Adf) (rest : List BlockContext) (txt : String)
        (cbi : Option LocalId) (cbt : Option String),
      txt.isEmpty = false → (strTrim (cleanSurroundingText txt)).isEmpty = false →
      flushText { stack := .paragraph ns :: rest, markStack := [], currentText := txt,
                  customBlockId := cbi, customBlockTag := cbt } =
        { stack := .paragraph (ns ++ [.text (cleanSurroundingText txt) none]) :: rest,
          markStack := [], currentText := "", customBlockId := cbi, customBlockTag := cbt }) := by
  refine ⟨?_, ?_, ?_⟩
  · intro ls rest txt ms cbi cbt hne hblank
    simp [flushText, trimForBlocks, hne, hblank, flushFrame, mapHead]
  · intro ls rest txt ms cbi cbt hne hblank
    simp [flushText, trimForBlocks, hne, hblank]
  · intro ns rest txt cbi cbt hne hblank
    simp [flushText, trimForBlocks, hne, hblank, flushFrame, mapHead]

/-- Witness for the C8 amended theorem: `"  x  "` is kept verbatim in a
code block, `" "` is dropped, and `" \n x \n "` lands in a paragraph as
`" x "`. -/
theorem c8_flush_trimming_amended_witness :
    flushText { stack := [.codeBlock [], .document []], markStack := [], currentText := "  x  ",
                customBlockId := none, customBlockTag := none } =
      { stack := [.codeBlock ["  x  "], .document []], markStack := [], currentText := "",
        customBlockId := none, customBlockTag := none } ∧
    flushText { stack := [.codeBlock [], .document []], markStack := [], currentText := " ",
                customBlockId := none, customBlockTag := none } =
      { stack := [.codeBlock [], .document []], markStack := [], currentText := "",
        customBlockId := none, customBlockTag := none } ∧
    flushText { stack := [.paragraph [], .document []], markStack := [], currentText := " \n x \n ",
                customBlockId := none, customBlockTag := none } =
      { stack := [.paragraph [.text " x " none], .document []], markStack := [], currentText := "",
        customBlockId := none, customBlockTag := none } := by
  refine ⟨?_, ?_, ?_⟩
  · exact c8_flush_trimming_amended.1 [] [.document []] "  x  " [] none none rfl rfl
  · exact c8_flush_trimming_amended.2.1 [] [.document []] " " [] none none rfl rfl
  · have h := c8_flush_trimming_amended.2.2 [] [.document []] " \n x \n " none none rfl rfl
    exact h

/-- C9 — counterexample.  A `<span>` whose style has neither `color` nor
`background-color` is a no-op beyond the flush: the handler returns the
state unchanged — no block context is opened (and no mark is pushed). -/
theorem c9_plain_span_counterexample :
    spanStartHandler paraTopState c9SpanElem = .ok (true, paraTopState) ∧
    paraTopState.stack.length = 2 :=
  ⟨rfl, rfl⟩

/-- C9 — amended claim.  A span start with no style attribute, or with a
style carrying neither `color` nor `background-color`, only flushes the
pending text (no frame is pushed, no mark is pushed); a span whose style
has a `color` property pushes exactly a text-color mark. -/
theorem c9_span_start_amended (s : ADFBuilderState) (e : Element) :
    (attrGet e.attrs "style" = none → spanStartHandler s e = .ok (true, flushText s)) ∧
    (∀ st, attrGet e.attrs "style" = some st →
      extractStyle (asciiLower st) "color" = none →
      extractStyle (asciiLower st) "background-color" = none →
      spanStartHandler s e = .ok (true, flushText s)) ∧
    (∀ st c, attrGet e.attrs "style" = some st →
      extractStyle (asciiLower st) "color" = some c →
      spanStartHandler s e =
        .ok (true, { flushText s with markStack := (flushText s).markStack ++ [.textColor c] })) := by
  refine ⟨?_, ?_, ?_⟩
  · intro hst
    simp [spanStartHandler, hst]
  · intro st hst hc hbg
    simp [spanStartHandler, hst, hc, hbg]
  · intro st c hst hc
    simp [spanStartHandler, hst, hc]

/-- Witness for the C9 amended theorem at concrete spans. -/
theorem c9_span_start_amended_witness :
    spanStartHandler paraTopState { tag := "span", attrs := [], selfClosing := false } =
      .ok (true, flushText paraTopState) ∧
    spanStartHandler paraTopState { tag := "span", attrs := [("style", "color: red")], selfClosing := false } =
      .ok (true, { flushText paraTopState with
        markStack := (flushText paraTopState).markStack ++ [.textColor "red"] }) := by
  constructor
  · exact (c9_span_start_amended paraTopState
      { tag := "span", attrs := [], selfClosing := false }).1 rfl
  · exact (c9_span_start_amended paraTopState
      { tag := "span", attrs := [("style", "color: red")], selfClosing := false }).2.2
      "color: red" "red" rfl rfl

/-- C10 — counterexample.  The empty-paragraph drop is not universal:
when the parent frame is a custom block (here the expand opened by
`<details>`), `close_current_block` appends the empty Paragraph node
unconditionally, so `<details><p></p></details>` *does* put a Paragraph
node into the output document. -/
theorem c10_empty_paragraph_counterexample :
    htmlToAdf "<details><p></p></details>" =
      .ok (.doc [.expand [.paragraph (some [])] { title := none }] 1) ∧
    firstChildExpandHoldsParagraph (htmlToAdf "<details><p></p></details>") = true :=
  ⟨rfl, rfl⟩

/-- C10 — amended claim.  Closing an empty paragraph appends nothing when
the parent frame is the document, a table cell/header, a blockquote or a
list item; when the parent is a div/expand/nested-expand/panel custom
block the empty Paragraph node is appended.  At the top level `<p></p>`
and a whitespace-only paragraph produce no node, while `<td></td>` is
kept as a table cell with an empty child sequence. -/
theorem c10_empty_paragraph_amended :
    (∀ pn, closeFrameInto (.paragraph []) (.document pn) = .ok (.document pn)) ∧
    (∀ pn, closeFrameInto (.paragraph []) (.tableBlockCell pn) = .ok (.tableBlockCell pn)) ∧
    (∀ pn, closeFrameInto (.paragraph []) (.tableBlockHeader pn) = .ok (.tableBlockHeader pn)) ∧
    (∀ pn, closeFrameInto (.paragraph []) (.blockquote pn) = .ok (.blockquote pn)) ∧
    (∀ pn, closeFrameInto (.paragraph []) (.listItem pn) = .ok (.listItem pn)) ∧
    (∀ pn attrs, closeFrameInto (.paragraph []) (.customBlock .div pn attrs) =
      .ok (.customBlock .div (pn ++ [.paragraph (some [])]) attrs)) ∧
    (∀ pn attrs, closeFrameInto (.paragraph []) (.customBlock .expand pn attrs) =
      .ok (.customBlock .expand (pn ++ [.paragraph (some [])]) attrs)) ∧
    (∀ pn attrs, closeFrameInto (.paragraph []) (.customBlock .panel pn attrs) =
      .ok (.customBlock .panel (pn ++ [.paragraph (some [])]) attrs)) ∧
    htmlToAdf "<p></p>" = .ok (.doc [] 1) ∧
    htmlToAdf "<p>   </p>" = .ok (.doc [] 1) ∧
    htmlToAdf "<table><tr><td></td></tr></table>" =
      .ok (.doc [.table none [.tableRow [.tableCell none []]]] 1) :=
  ⟨fun _ => rfl, fun _ => rfl, fun _ => rfl, fun _ => rfl, fun _ => rfl,
   fun _ _ => rfl, fun _ _ => rfl, fun _ _ => rfl, rfl, rfl, rfl⟩

/-- C3 — confirmed.  When `close_current_block` successfully closes a
pending-list frame, the parent is one of the frame kinds carrying a block
children list, and exactly one node is appended to it: the node chosen
from the captured local-tag (`task-list` → TaskList, `decision-list` →
DecisionList) and the ordered flag (OrderedList / BulletList), with the
accumulated items filtered to the subtype matching that kind. -/
theorem c3_pending_list_close
    (items : List ListItemTy) (ordered : Bool) (lid ltag : Option String)
    (parent : BlockContext) (rest : List BlockContext)
    (ms : List AdfMark) (txt : String) (cbi : Option LocalId) (cbt : Option String)
    (s' : ADFBuilderState)
    (hok : closeCurrentBlock
      { stack := .pendingList items ordered lid ltag :: parent :: rest,
        markStack := ms, currentText := txt, customBlockId := cbi, customBlockTag := cbt } =
      .ok s') :
    ∃ pn, blockChildren parent = some pn ∧
      s' = { stack := withBlockChildren parent (pn ++ [specListNodeFor items ordered lid ltag]) :: rest,
             markStack := ms, currentText := txt, customBlockId := cbi, customBlockTag := cbt } := by
  cases parent with
  | document pn => exact ⟨pn, rfl, (Except.ok.inj hok).symm⟩
  | blockquote pn => exact ⟨pn, rfl, (Except.ok.inj hok).symm⟩
  | tableBlockCell pn => exact ⟨pn, rfl, (Except.ok.inj hok).symm⟩
  | tableBlockHeader pn => exact ⟨pn, rfl, (Except.ok.inj hok).symm⟩
  | listItem pn => exact ⟨pn, rfl, (Except.ok.inj hok).symm⟩
  | customBlock ty pn pattrs =>
      cases ty with
      | div => exact ⟨pn, rfl, (Except.ok.inj hok).symm⟩
      | emoji => exact Except.noConfusion hok
      | status => exact Except.noConfusion hok
      | decisionItem => exact Except.noConfusion hok
      | expand => exact Except.noConfusion hok
      | nestedExpand => exact Except.noConfusion hok
      | panel => exact Except.noConfusion hok
      | mention => exact Except.noConfusion hok
      | inlineCard => exact Except.noConfusion hok
      | date => exact Except.noConfusion hok
  | codeBlock ls => exact Except.noConfusion hok
  | mediaBlock ty ns attrs => exact Except.noConfusion hok
  | tableBlock rows => exact Except.noConfusion hok
  | tableRowBlock cells => exact Except.noConfusion hok
  | heading level ns => exact Except.noConfusion hok
  | summary ns => exact Except.noConfusion hok
  | paragraph ns => exact Except.noConfusion hok
  | pendingList ns o l t => exact Except.noConfusion hok
  | taskItem ns st l => exact Except.noConfusion hok
  | decisionItem ns l => exact Except.noConfusion hok

/-- Witness for C3: closing a `task-list`-tagged pending list over the
document root keeps only the task items. -/
theorem c3_pending_list_close_witness :
    ∃ pn, blockChildren (.document []) = some pn ∧
      ({ stack := [.document [.taskList "tl" [.taskItem [.text "a" none] { localId := "i1", state := .done }]]],
         markStack := [], currentText := "", customBlockId := none,
         customBlockTag := none } : ADFBuilderState) =
        { stack := withBlockChildren (.document [])
            (pn ++ [specListNodeFor
              [.listItem [.paragraph (some [.text "x" none])],
               .taskItem [.text "a" none] { localId := "i1", state := .done }]
              false (some "tl") (some "task-list")]) :: [],
          markStack := [], currentText := "", customBlockId := none, customBlockTag := none } :=
  c3_pending_list_close
    [.listItem [.paragraph (some [.text "x" none])],
     .taskItem [.text "a" none] { localId := "i1", state := .done }]
    false (some "tl") (some "task-list") (.document []) [] [] "" none none _ rfl

/-! ## Invariant lemmas for C2: the bottom-document property -/

theorem stackBD_cons (f : BlockContext) {l : List BlockContext} (h : stackBD l) :
    stackBD (f :: l) := by
  cases l with
  | nil => exact h.elim
  | cons x xs => exact h

theorem stackBD_single {f : BlockContext} (h : stackBD [f]) : ∃ ns, f = .document ns := by
  cases f with
  | document ns => exact ⟨ns, rfl⟩
  | blockquote ns => exact h.elim
  | codeBlock ls => exact h.elim
  | customBlock ty ns attrs => exact h.elim
  | mediaBlock ty ns attrs => exact h.elim
  | tableBlock rows => exact h.elim
  | tableRowBlock cells => exact h.elim
  | tableBlockCell ns => exact h.elim
  | tableBlockHeader ns => exact h.elim
  | heading level ns => exact h.elim
  | summary ns => exact h.elim
  | paragraph ns => exact h.elim
  | pendingList ns o lid ltag => exact h.elim
  | listItem ns => exact h.elim
  | taskItem ns st lid => exact h.elim
  | decisionItem ns lid => exact h.elim

/-- Replacing the head frame preserves the invariant provided a document
head can only be replaced by a document head. -/
theorem stackBD_replaceHead {f g : BlockContext} {l : List BlockContext}
    (hsame : ∀ ns, f = .document ns → ∃ ns', g = .document ns')
    (h : stackBD (f :: l)) : stackBD (g :: l) := by
  cases l with
  | nil =>
      obtain ⟨ns, hf⟩ := stackBD_single h
      obtain ⟨ns', hg⟩ := hsame ns hf
      rw [hg]
      trivial
  | cons x xs => exact h

theorem stackBD_mapHead {g : BlockContext → BlockContext}
    (hg : ∀ ns, ∃ ns', g (.document ns) = .document ns')
    {l : List BlockContext} (h : stackBD l) : stackBD (mapHead g l) := by
  cases l with
  | nil => exact h.elim
  | cons x xs =>
      show stackBD (g x :: xs)
      refine stackBD_replaceHead ?_ h
      intro ns hx
      rw [hx]
      exact hg ns

theorem flushFrame_document (txt : String) (marks : Option (List AdfMark)) (ns : List Adf) :
    flushFrame txt marks (.document ns) = .document ns := rfl

theorem bd_flushText {s : ADFBuilderState} (h : BottomDoc s) : BottomDoc (flushText s) := by
  unfold BottomDoc flushText
  dsimp only
  repeat' split
  all_goals first
    | exact h
    | (refine stackBD_mapHead ?_ h
       intro ns
       exact ⟨ns, rfl⟩)

theorem bd_pushInline {s : ADFBuilderState} (node : Adf) (h : BottomDoc s) :
    BottomDoc (pushInline s node) :=
  stackBD_mapHead (fun ns => ⟨ns, rfl⟩) h

theorem bd_pushFrame {s : ADFBuilderState} (f : BlockContext) (h : BottomDoc s) :
    BottomDoc (pushFrame s f) :=
  stackBD_cons f h

theorem closeFrameInto_document {f : BlockContext} {ns : List Adf} {p' : BlockContext}
    (h : closeFrameInto f (.document ns) = .ok p') : ∃ ns', p' = .document ns' := by
  unfold closeFrameInto at h
  cases f with
  | paragraph nodes =>
      by_cases he : nodes.isEmpty
      · simp only [he, if_true] at h
        exact ⟨ns, (Except.ok.inj h).symm⟩
      · simp only [he, if_false] at h
        exact ⟨_, (Except.ok.inj h).symm⟩
  | customBlock ty nodes attrs =>
      cases ty with
      | expand => exact ⟨_, (Except.ok.inj h).symm⟩
      | div => exact Except.noConfusion h
      | emoji => exact Except.noConfusion h
      | status => exact Except.noConfusion h
      | decisionItem => exact Except.noConfusion h
      | nestedExpand => exact Except.noConfusion h
      | panel => exact Except.noConfusion h
      | mention => exact Except.noConfusion h
      | inlineCard => exact Except.noConfusion h
      | date => exact Except.noConfusion h
  | codeBlock ls => exact ⟨_, (Except.ok.inj h).symm⟩
  | blockquote nodes => exact ⟨_, (Except.ok.inj h).symm⟩
  | pendingList items o lid ltag => exact ⟨_, (Except.ok.inj h).symm⟩
  | document nodes => exact Except.noConfusion h
  | mediaBlock ty nodes attrs => exact Except.noConfusion h
  | tableBlock rows => exact Except.noConfusion h
  | tableRowBlock cells => exact Except.noConfusion h
  | tableBlockCell nodes => exact Except.noConfusion h
  | tableBlockHeader nodes => exact Except.noConfusion h
  | heading level nodes => exact Except.noConfusion h
  | summary nodes => exact Except.noConfusion h
  | listItem nodes => exact Except.noConfusion h
  | taskItem nodes st lid => exact Except.noConfusion h
  | decisionItem nodes lid => exact Except.noConfusion h

theorem bd_closeCurrentBlock {s s' : ADFBuilderState} (h : BottomDoc s)
    (hok : closeCurrentBlock s = .ok s') : BottomDoc s' := by
  unfold closeCurrentBlock at hok
  unfold BottomDoc at h ⊢
  cases hl : s.stack with
  | nil => rw [hl] at hok; exact Except.noConfusion hok
  | cons f rest =>
      cases rest with
      | nil => rw [hl] at hok; exact Except.noConfusion hok
      | cons p rest' =>
          rw [hl] at hok h
          have hok' : (closeFrameInto f p).bind
              (fun parent' => Except.ok { s with stack := parent' :: rest' }) =
              Except.ok s' := hok
          cases hcfi : closeFrameInto f p with
          | error msg => rw [hcfi] at hok'; exact Except.noConfusion hok'
          | ok p' =>
              rw [hcfi] at hok'
              have hs' := (Except.ok.inj hok').symm
              rw [hs']
              show stackBD (p' :: rest')
              have hp : stackBD (p :: rest') := h
              cases rest' with
              | nil =>
                  obtain ⟨ns, hpd⟩ := stackBD_single hp
                  rw [hpd] at hcfi
                  obtain ⟨ns', hp'⟩ := closeFrameInto_document hcfi
                  rw [hp']
                  trivial
              | cons y ys => exact hp

theorem bind_ok_elim {α β : Type} {m : BuildM α} {f : α → BuildM β} {b : β}
    (h : m >>= f = .ok b) : ∃ a, m = .ok a ∧ f a = .ok b := by
  cases m with
  | error e => exact Except.noConfusion h
  | ok a => exact ⟨a, rfl, h⟩

theorem bd_pushNodeToParent {s s' : ADFBuilderState} {node : Adf} (h : BottomDoc s)
    (hok : pushNodeToParent s node = .ok s') : BottomDoc s' := by
  unfold BottomDoc at h ⊢
  unfold pushNodeToParent at hok
  cases hl : s.stack with
  | nil => rw [hl] at hok; exact Except.noConfusion hok
  | cons f rest =>
      rw [hl] at hok h
      cases f with
      | document ns =>
          obtain rfl := Except.ok.inj hok
          exact stackBD_replaceHead (fun ns0 hne => ⟨pushIntoLastParagraph ns node, rfl⟩) h
      | customBlock ty ns attrs =>
          cases ty with
          | div =>
              obtain rfl := Except.ok.inj hok
              exact stackBD_replaceHead (fun ns0 hne => BlockContext.noConfusion hne) h
          | expand =>
              obtain rfl := Except.ok.inj hok
              exact stackBD_replaceHead (fun ns0 hne => BlockContext.noConfusion hne) h
          | panel =>
              obtain rfl := Except.ok.inj hok
              exact stackBD_replaceHead (fun ns0 hne => BlockContext.noConfusion hne) h
          | nestedExpand => exact Except.noConfusion hok
          | emoji => exact Except.noConfusion hok
          | status => exact Except.noConfusion hok
          | decisionItem => exact Except.noConfusion hok
          | mention => exact Except.noConfusion hok
          | inlineCard => exact Except.noConfusion hok
          | date => exact Except.noConfusion hok
      | paragraph ns =>
          obtain rfl := Except.ok.inj hok
          exact stackBD_replaceHead (fun ns0 hne => BlockContext.noConfusion hne) h
      | heading lvl ns =>
          obtain rfl := Except.ok.inj hok
          exact stackBD_replaceHead (fun ns0 hne => BlockContext.noConfusion hne) h
      | blockquote ns =>
          obtain rfl := Except.ok.inj hok
          exact stackBD_replaceHead (fun ns0 hne => BlockContext.noConfusion hne) h
      | listItem ns =>
          obtain rfl := Except.ok.inj hok
          exact stackBD_replaceHead (fun ns0 hne => BlockContext.noConfusion hne) h
      | tableBlockCell ns =>
          obtain rfl := Except.ok.inj hok
          exact stackBD_replaceHead (fun ns0 hne => BlockContext.noConfusion hne) h
      | tableBlockHeader ns =>
          obtain rfl := Except.ok.inj hok
          exact stackBD_replaceHead (fun ns0 hne => BlockContext.noConfusion hne) h
      | codeBlock ls => exact Except.noConfusion hok
      | mediaBlock ty ns attrs => exact Except.noConfusion hok
      | tableBlock rows => exact Except.noConfusion hok
      | tableRowBlock cells => exact Except.noConfusion hok
      | summary ns => exact Except.noConfusion hok
      | pendingList ns o lid ltag => exact Except.noConfusion hok
      | taskItem ns st lid => exact Except.noConfusion hok
      | decisionItem ns lid => exact Except.noConfusion hok

theorem bd_pushNodeBlockToStack {node : Adf} :
    ∀ {l l' : List BlockContext}, stackBD l →
      pushNodeBlockToStack l node = .ok l' → stackBD l' := by
  intro l
  induction l with
  | nil => intro l' h hok; exact Except.noConfusion hok
  | cons f rest ih =>
      intro l' h hok
      cases f with
      | document ns =>
          simp only [pushNodeBlockToStack] at hok
          split at hok
          · obtain rfl := Except.ok.inj hok
            exact h
          · obtain rfl := Except.ok.inj hok
            exact stackBD_replaceHead (fun ns0 hne => ⟨ns ++ [node], rfl⟩) h
      | blockquote ns =>
          simp only [pushNodeBlockToStack] at hok
          split at hok
          · obtain rfl := Except.ok.inj hok
            exact h
          · obtain rfl := Except.ok.inj hok
            exact stackBD_replaceHead (fun ns0 hne => BlockContext.noConfusion hne) h
      | listItem ns =>
          simp only [pushNodeBlockToStack] at hok
          split at hok
          · obtain rfl := Except.ok.inj hok
            exact h
          · obtain rfl := Except.ok.inj hok
            exact stackBD_replaceHead (fun ns0 hne => BlockContext.noConfusion hne) h
      | tableBlockCell ns =>
          simp only [pushNodeBlockToStack] at hok
          split at hok
          · obtain rfl := Except.ok.inj hok
            exact h
          · obtain rfl := Except.ok.inj hok
            exact stackBD_replaceHead (fun ns0 hne => BlockContext.noConfusion hne) h
      | tableBlockHeader ns =>
          simp only [pushNodeBlockToStack] at hok
          split at hok
          · obtain rfl := Except.ok.inj hok
            exact h
          · obtain rfl := Except.ok.inj hok
            exact stackBD_replaceHead (fun ns0 hne => BlockContext.noConfusion hne) h
      | customBlock ty ns attrs =>
          cases ty with
          | panel =>
              simp only [pushNodeBlockToStack] at hok
              split at hok
              · obtain rfl := Except.ok.inj hok
                exact h
              · obtain rfl := Except.ok.inj hok
                exact stackBD_replaceHead (fun ns0 hne => BlockContext.noConfusion hne) h
          | expand =>
              simp only [pushNodeBlockToStack] at hok
              split at hok
              · obtain rfl := Except.ok.inj hok
                exact h
              · obtain rfl := Except.ok.inj hok
                exact stackBD_replaceHead (fun ns0 hne => BlockContext.noConfusion hne) h
          | nestedExpand =>
              simp only [pushNodeBlockToStack] at hok
              split at hok
              · obtain rfl := Except.ok.inj hok
                exact h
              · obtain rfl := Except.ok.inj hok
                exact stackBD_replaceHead (fun ns0 hne => BlockContext.noConfusion hne) h
          | div =>
              simp only [pushNodeBlockToStack] at hok
              split at hok
              · obtain rfl := Except.ok.inj hok
                exact h
              · obtain rfl := Except.ok.inj hok
                exact stackBD_replaceHead (fun ns0 hne => BlockContext.noConfusion hne) h
          | emoji => exact Except.noConfusion hok
          | status => exact Except.noConfusion hok
          | decisionItem => exact Except.noConfusion hok
          | mention => exact Except.noConfusion hok
          | inlineCard => exact Except.noConfusion hok
          | date => exact Except.noConfusion hok
      | paragraph ns =>
          simp only [pushNodeBlockToStack] at hok
          split at hok
          · cases rest with
            | nil => exact h.elim
            | cons x xs => exact ih h hok
          · exact Except.noConfusion hok
      | codeBlock ls => exact Except.noConfusion hok
      | mediaBlock ty ns attrs => exact Except.noConfusion hok
      | tableBlock rows => exact Except.noConfusion hok
      | tableRowBlock cells => exact Except.noConfusion hok
      | heading lvl ns => exact Except.noConfusion hok
      | summary ns => exact Except.noConfusion hok
      | pendingList ns o lid ltag => exact Except.noConfusion hok
      | taskItem ns st lid => exact Except.noConfusion hok
      | decisionItem ns lid => exact Except.noConfusion hok

theorem bd_pushNodeBlockToParent {s s' : ADFBuilderState} {node : Adf} (h : BottomDoc s)
    (hok : pushNodeBlockToParent s node = .ok s') : BottomDoc s' := by
  unfold pushNodeBlockToParent at hok
  obtain ⟨stack', h1, h2⟩ := bind_ok_elim hok
  obtain rfl := Except.ok.inj h2
  exact bd_pushNodeBlockToStack h h1

theorem bd_popToListItem (f : BlockContext) :
    ∀ {l : List BlockContext} {inner rest}, stackBD l →
      popToListItem l = .ok (inner, rest) → stackBD (f :: rest) := by
  intro l
  induction l with
  | nil => intro inner rest h hok; exact Except.noConfusion hok
  | cons g tail ih =>
      intro inner rest h hok
      cases tail with
      | nil =>
          obtain ⟨ns, hg⟩ := stackBD_single h
          rw [hg] at hok
          exact Except.noConfusion hok
      | cons x xs =>
          have htail : stackBD (x :: xs) := h
          cases g
          case listItem inner' =>
            have h1 : (inner', x :: xs) = (inner, rest) := Except.ok.inj hok
            injection h1 with h2 h3
            subst h3
            exact htail
          all_goals exact ih htail hok

theorem bd_closeCurrentListItem {s s' : ADFBuilderState} (h : BottomDoc s)
    (hok : closeCurrentListItem s = .ok s') : BottomDoc s' := by
  unfold closeCurrentListItem at hok
  have h1 : BottomDoc (flushText s) := bd_flushText h
  generalize hst : flushText s = s1 at hok h1
  dsimp only at hok
  unfold BottomDoc at h1 ⊢
  cases hl : s1.stack with
  | nil => rw [hl] at hok h1; exact h1.elim
  | cons f rest =>
      rw [hl] at hok h1
      cases f
      case listItem ns =>
        cases rest with
        | nil => exact Except.noConfusion hok
        | cons g rest' =>
            have htail : stackBD (g :: rest') := h1
            cases g
            case pendingList list o lid ltag =>
              obtain rfl := Except.ok.inj hok
              exact stackBD_replaceHead (fun ns0 hne => BlockContext.noConfusion hne) htail
            all_goals exact Except.noConfusion hok
      case taskItem ns st lid =>
        cases rest with
        | nil => exact Except.noConfusion hok
        | cons g rest' =>
            have htail : stackBD (g :: rest') := h1
            cases g
            case pendingList list o lid' ltag =>
              obtain rfl := Except.ok.inj hok
              exact stackBD_replaceHead (fun ns0 hne => BlockContext.noConfusion hne) htail
            all_goals exact Except.noConfusion hok
      case decisionItem ns lid =>
        cases rest with
        | nil => exact Except.noConfusion hok
        | cons g rest' =>
            have htail : stackBD (g :: rest') := h1
            cases g
            case pendingList list o lid' ltag =>
              obtain rfl := Except.ok.inj hok
              exact stackBD_replaceHead (fun ns0 hne => BlockContext.noConfusion hne) htail
            all_goals exact Except.noConfusion hok
      all_goals exact Except.noConfusion hok

theorem bd_ruleCloseLoop :
    ∀ (fuel : Nat) {s s' : ADFBuilderState}, BottomDoc s →
      ruleCloseLoop fuel s = .ok s' → BottomDoc s' := by
  intro fuel
  induction fuel with
  | zero =>
      intro s s' h hok
      unfold ruleCloseLoop at hok
      split at hok
      · exact Except.noConfusion hok
      · obtain rfl := Except.ok.inj hok
        exact h
  | succ n ih =>
      intro s s' h hok
      unfold ruleCloseLoop at hok
      split at hok
      · obtain ⟨s2, h1, h2⟩ := bind_ok_elim hok
        exact ih (bd_closeCurrentBlock h h1) h2
      · obtain rfl := Except.ok.inj hok
        exact h

theorem bd_closeCurrentTableRow {s s' : ADFBuilderState} (h : BottomDoc s)
    (hok : closeCurrentTableRow s = .ok s') : BottomDoc s' := by
  unfold closeCurrentTableRow at hok
  unfold BottomDoc at h ⊢
  cases hl : s.stack with
  | nil => rw [hl] at hok; exact Except.noConfusion hok
  | cons f rest =>
      rw [hl] at hok h
      cases f
      case tableRowBlock cells =>
        cases rest with
        | nil => exact Except.noConfusion hok
        | cons g rest' =>
            have htail : stackBD (g :: rest') := h
            cases g
            case tableBlock rows =>
              obtain rfl := Except.ok.inj hok
              exact stackBD_replaceHead (fun ns0 hne => BlockContext.noConfusion hne) htail
            all_goals exact Except.noConfusion hok
      all_goals exact Except.noConfusion hok

theorem bd_closeCurrentTableCell {s s' : ADFBuilderState} (h : BottomDoc s)
    (hok : closeCurrentTableCell s = .ok s') : BottomDoc s' := by
  unfold closeCurrentTableCell at hok
  unfold BottomDoc at h ⊢
  cases hl : s.stack with
  | nil => rw [hl] at hok; exact Except.noConfusion hok
  | cons f rest =>
      rw [hl] at hok h
      cases f
      case tableBlockCell ns =>
        cases rest with
        | nil => exact Except.noConfusion hok
        | cons g rest' =>
            have htail : stackBD (g :: rest') := h
            cases g
            case tableRowBlock cells =>
              obtain rfl := Except.ok.inj hok
              exact stackBD_replaceHead (fun ns0 hne => BlockContext.noConfusion hne) htail
            all_goals exact Except.noConfusion hok
      all_goals exact Except.noConfusion hok

theorem bd_closeCurrentTableHeader {s s' : ADFBuilderState} (h : BottomDoc s)
    (hok : closeCurrentTableHeader s = .ok s') : BottomDoc s' := by
  unfold closeCurrentTableHeader at hok
  unfold BottomDoc at h ⊢
  cases hl : s.stack with
  | nil => rw [hl] at hok; exact Except.noConfusion hok
  | cons f rest =>
      rw [hl] at hok h
      cases f
      case tableBlockHeader ns =>
        cases rest with
        | nil => exact Except.noConfusion hok
        | cons g rest' =>
            have htail : stackBD (g :: rest') := h
            cases g
            case tableRowBlock cells =>
              obtain rfl := Except.ok.inj hok
              exact stackBD_replaceHead (fun ns0 hne => BlockContext.noConfusion hne) htail
            all_goals exact Except.noConfusion hok
      all_goals exact Except.noConfusion hok

theorem bd_pushMediaNodeToParent {s s' : ADFBuilderState} {node : MediaNode} (h : BottomDoc s)
    (hok : pushMediaNodeToParent s node = .ok s') : BottomDoc s' := by
  unfold pushMediaNodeToParent at hok
  unfold BottomDoc at h ⊢
  cases hl : s.stack with
  | nil => rw [hl] at hok; exact Except.noConfusion hok
  | cons f rest =>
      rw [hl] at hok h
      cases f
      case mediaBlock ty ns attrs =>
        obtain rfl := Except.ok.inj hok
        exact stackBD_replaceHead (fun ns0 hne => BlockContext.noConfusion hne) h
      all_goals exact Except.noConfusion hok

theorem bd_storeSummary {txt : String} :
    ∀ {l l' : List BlockContext}, stackBD l →
      storeSummary l txt = some l' → stackBD l' := by
  intro l
  induction l with
  | nil => intro l' h hs; exact Option.noConfusion hs
  | cons f rest ih =>
      intro l' h hs
      cases f
      case customBlock ty ns attrs =>
        cases ty
        case expand =>
          obtain rfl := Option.some.inj hs
          exact stackBD_replaceHead (fun ns0 hne => BlockContext.noConfusion hne) h
        case nestedExpand =>
          obtain rfl := Option.some.inj hs
          exact stackBD_replaceHead (fun ns0 hne => BlockContext.noConfusion hne) h
        all_goals
          cases hrec : storeSummary rest txt with
          | none =>
              simp only [storeSummary, hrec, Option.map] at hs
              exact Option.noConfusion hs
          | some rest2 =>
              simp only [storeSummary, hrec, Option.map] at hs
              obtain rfl := Option.some.inj hs
              cases rest with
              | nil => exact Option.noConfusion hrec
              | cons x xs => exact stackBD_cons _ (ih h hrec)
      all_goals
        cases hrec : storeSummary rest txt with
        | none =>
            simp only [storeSummary, hrec, Option.map] at hs
            exact Option.noConfusion hs
        | some rest2 =>
            simp only [storeSummary, hrec, Option.map] at hs
            obtain rfl := Option.some.inj hs
            cases rest with
            | nil => exact Option.noConfusion hrec
            | cons x xs => exact stackBD_cons _ (ih h hrec)

theorem bd_foldlPushBlocks :
    ∀ {nodes : List Adf} {s s' : ADFBuilderState}, BottomDoc s →
      nodes.foldlM pushNodeBlockToParent s = .ok s' → BottomDoc s' := by
  intro nodes
  induction nodes with
  | nil =>
      intro s s' h hok
      obtain rfl := Except.ok.inj hok
      exact h
  | cons n ns ih =>
      intro s s' h hok
      rw [List.foldlM_cons] at hok
      obtain ⟨s2, h1, h2⟩ := bind_ok_elim hok
      exact ih (bd_pushNodeBlockToParent h h1) h2

theorem pbd_hardBreakStartHandler : PreservesBD hardBreakStartHandler := by
  intro s e b s' h hok
  have hp := Except.ok.inj hok
  injection hp with hb hs
  subst hs
  exact bd_pushInline _ (bd_flushText h)

theorem pbd_ruleStartHandler : PreservesBD ruleStartHandler := by
  intro s e b s' h hok
  unfold ruleStartHandler at hok
  obtain ⟨s2, h1, h2⟩ := bind_ok_elim hok
  obtain ⟨s3, h3, h4⟩ := bind_ok_elim h2
  have hp := Except.ok.inj h4
  injection hp with hb hs
  subst hs
  exact bd_pushNodeBlockToParent (bd_ruleCloseLoop _ (bd_flushText h) h1) h3

theorem pbd_codeStartHandler : PreservesBD codeStartHandler := by
  intro s e b s' h hok
  unfold codeStartHandler at hok
  dsimp only at hok
  split at hok
  · have hp := Except.ok.inj hok
    injection hp with hb hs
    subst hs
    exact bd_flushText h
  · have hp := Except.ok.inj hok
    injection hp with hb hs
    subst hs
    exact bd_flushText h

theorem pbd_codeEndHandler : PreservesBD codeEndHandler := by
  intro s e b s' h hok
  unfold codeEndHandler at hok
  dsimp only at hok
  split at hok
  · have hp := Except.ok.inj hok
    injection hp with hb hs
    subst hs
    exact bd_flushText h
  · have hp := Except.ok.inj hok
    injection hp with hb hs
    subst hs
    exact bd_flushText h

theorem pbd_spanStartHandler : PreservesBD spanStartHandler := by
  intro s e b s' h hok
  unfold spanStartHandler at hok
  dsimp only at hok
  cases hA : attrGet e.attrs "style" with
  | none =>
      rw [hA] at hok
      have hp := Except.ok.inj hok
      injection hp with hb hs
      subst hs
      exact bd_flushText h
  | some styleAttr =>
      rw [hA] at hok
      dsimp only at hok
      cases hC : extractStyle (asciiLower styleAttr) "color" with
      | some color =>
          rw [hC] at hok
          have hp := Except.ok.inj hok
          injection hp with hb hs
          subst hs
          exact bd_flushText h
      | none =>
          rw [hC] at hok
          dsimp only at hok
          cases hB : extractStyle (asciiLower styleAttr) "background-color" with
          | some bg =>
              rw [hB] at hok
              have hp := Except.ok.inj hok
              injection hp with hb hs
              subst hs
              exact bd_flushText h
          | none =>
              rw [hB] at hok
              have hp := Except.ok.inj hok
              injection hp with hb hs
              subst hs
              exact bd_flushText h

theorem pbd_divStartHandler : PreservesBD divStartHandler := by
  intro s e b s' h hok
  have hp := Except.ok.inj hok
  injection hp with hb hs
  subst hs
  exact stackBD_cons _ (bd_flushText h)

theorem pbd_divEndHandler : PreservesBD divEndHandler := by
  intro s e b s' h hok
  unfold divEndHandler at hok
  have h1 : BottomDoc (flushText s) := bd_flushText h
  generalize hst : flushText s = s1 at hok h1
  dsimp only at hok
  unfold BottomDoc at h1 ⊢
  cases hl : s1.stack with
  | nil => rw [hl] at hok; exact Except.noConfusion hok
  | cons f rest =>
      rw [hl] at hok h1
      cases f
      case customBlock ty ns attrs =>
        cases ty
        case div =>
          have hrest : stackBD rest := by
            cases rest with
            | nil => exact h1.elim
            | cons x xs => exact h1
          dsimp only at hok
          split at hok
          · split at hok
            · have hp := Except.ok.inj hok
              injection hp with hb hs
              subst hs
              exact hrest
            · split at hok
              · obtain ⟨s2, hpp, h2⟩ := bind_ok_elim hok
                have hp := Except.ok.inj h2
                injection hp with hb hs
                subst hs
                refine bd_pushNodeToParent ?_ hpp
                exact hrest
              · obtain ⟨s2, hpp, h2⟩ := bind_ok_elim hok
                have hp := Except.ok.inj h2
                injection hp with hb hs
                subst hs
                refine bd_pushNodeBlockToParent ?_ hpp
                exact hrest
          · split at hok
            · have hp := Except.ok.inj hok
              injection hp with hb hs
              subst hs
              exact hrest
            · obtain ⟨s2, hpp, h2⟩ := bind_ok_elim hok
              have hp := Except.ok.inj h2
              injection hp with hb hs
              subst hs
              refine bd_foldlPushBlocks ?_ hpp
              exact hrest
        all_goals exact Except.noConfusion hok
      all_goals exact Except.noConfusion hok

theorem pbd_ulStartHandler : PreservesBD ulStartHandler := by
  intro s e b s' h hok
  have hp := Except.ok.inj hok
  injection hp with hb hs
  subst hs
  exact stackBD_cons _ (bd_flushText h)

theorem pbd_olStartHandler : PreservesBD olStartHandler := by
  intro s e b s' h hok
  have hp := Except.ok.inj hok
  injection hp with hb hs
  subst hs
  exact stackBD_cons _ (bd_flushText h)

theorem pbd_liStartHandler : PreservesBD liStartHandler := by
  intro s e b s' h hok
  have hp := Except.ok.inj hok
  injection hp with hb hs
  subst hs
  exact stackBD_cons _ (bd_flushText h)

theorem pbd_pStartHandler : PreservesBD pStartHandler := by
  intro s e b s' h hok
  have hp := Except.ok.inj hok
  injection hp with hb hs
  subst hs
  exact stackBD_cons _ (bd_flushText h)

theorem pbd_preStartHandler : PreservesBD preStartHandler := by
  intro s e b s' h hok
  have hp := Except.ok.inj hok
  injection hp with hb hs
  subst hs
  exact stackBD_cons _ (bd_flushText h)

theorem pbd_blockquoteStartHandler : PreservesBD blockquoteStartHandler := by
  intro s e b s' h hok
  have hp := Except.ok.inj hok
  injection hp with hb hs
  subst hs
  exact stackBD_cons _ (bd_flushText h)

theorem pbd_pushMarkHandler (mark : AdfMark) : PreservesBD (pushMarkHandler mark) := by
  intro s e b s' h hok
  have hp := Except.ok.inj hok
  injection hp with hb hs
  subst hs
  exact bd_flushText h

theorem pbd_aStartHandler : PreservesBD aStartHandler := by
  intro s e b s' h hok
  unfold aStartHandler at hok
  cases hA : attrGet e.attrs "href" with
  | some href =>
      rw [hA] at hok
      have hp := Except.ok.inj hok
      injection hp with hb hs
      subst hs
      exact bd_flushText h
  | none =>
      rw [hA] at hok
      have hp := Except.ok.inj hok
      injection hp with hb hs
      subst hs
      exact bd_flushText h

theorem pbd_headerStartHandler (level : Nat) : PreservesBD (headerStartHandler level) := by
  intro s e b s' h hok
  have hp := Except.ok.inj hok
  injection hp with hb hs
  subst hs
  exact stackBD_cons _ (bd_flushText h)

theorem pbd_listEndHandler : PreservesBD listEndHandler := by
  intro s e b s' h hok
  unfold listEndHandler at hok
  obtain ⟨s2, h1, h2⟩ := bind_ok_elim hok
  have hp := Except.ok.inj h2
  injection hp with hb hs
  subst hs
  exact bd_closeCurrentBlock (bd_flushText h) h1

theorem pbd_liEndHandler : PreservesBD liEndHandler := by
  intro s e b s' h hok
  unfold liEndHandler at hok
  obtain ⟨s2, h1, h2⟩ := bind_ok_elim hok
  have hp := Except.ok.inj h2
  injection hp with hb hs
  subst hs
  exact bd_closeCurrentListItem h h1

theorem pbd_blockEndHandler : PreservesBD blockEndHandler := by
  intro s e b s' h hok
  unfold blockEndHandler at hok
  obtain ⟨s2, h1, h2⟩ := bind_ok_elim hok
  have hp := Except.ok.inj h2
  injection hp with hb hs
  subst hs
  exact bd_closeCurrentBlock (bd_flushText h) h1

theorem pbd_markEndHandler : PreservesBD markEndHandler := by
  intro s e b s' h hok
  have hp := Except.ok.inj hok
  injection hp with hb hs
  subst hs
  exact bd_flushText h

theorem pbd_headerEndHandler (level : Nat) : PreservesBD (headerEndHandler level) := by
  intro s e b s' h hok
  unfold headerEndHandler at hok
  have h1 : BottomDoc (flushText s) := bd_flushText h
  generalize hst : flushText s = s1 at hok h1
  dsimp only at hok
  unfold BottomDoc at h1
  cases hl : s1.stack with
  | nil => rw [hl] at hok; exact Except.noConfusion hok
  | cons f rest =>
      rw [hl] at hok h1
      cases f
      case heading lvl ns =>
        have hrest : stackBD rest := by
          cases rest with
          | nil => exact h1.elim
          | cons x xs => exact h1
        dsimp only at hok
        split at hok
        · obtain ⟨s2, hpp, h2⟩ := bind_ok_elim hok
          have hp := Except.ok.inj h2
          injection hp with hb hs
          subst hs
          refine bd_pushNodeBlockToParent ?_ hpp
          exact hrest
        · exact Except.noConfusion hok
      all_goals exact Except.noConfusion hok

theorem pbd_tableStartHandler : PreservesBD tableStartHandler := by
  intro s e b s' h hok
  have hp := Except.ok.inj hok
  injection hp with hb hs
  subst hs
  exact stackBD_cons _ (bd_flushText h)

theorem pbd_tableSectionHandler : PreservesBD tableSectionHandler := by
  intro s e b s' h hok
  have hp := Except.ok.inj hok
  injection hp with hb hs
  subst hs
  exact h

theorem pbd_tableRowStartHandler : PreservesBD tableRowStartHandler := by
  intro s e b s' h hok
  have hp := Except.ok.inj hok
  injection hp with hb hs
  subst hs
  exact stackBD_cons _ (bd_flushText h)

theorem pbd_tableCellStartHandler : PreservesBD tableCellStartHandler := by
  intro s e b s' h hok
  have hp := Except.ok.inj hok
  injection hp with hb hs
  subst hs
  exact stackBD_cons _ (bd_flushText h)

theorem pbd_tableHeaderStartHandler : PreservesBD tableHeaderStartHandler := by
  intro s e b s' h hok
  have hp := Except.ok.inj hok
  injection hp with hb hs
  subst hs
  exact stackBD_cons _ (bd_flushText h)

theorem pbd_tableRowEndHandler : PreservesBD tableRowEndHandler := by
  intro s e b s' h hok
  unfold tableRowEndHandler at hok
  obtain ⟨s2, h1, h2⟩ := bind_ok_elim hok
  have hp := Except.ok.inj h2
  injection hp with hb hs
  subst hs
  exact bd_closeCurrentTableRow (bd_flushText h) h1

theorem pbd_tableCellEndHandler : PreservesBD tableCellEndHandler := by
  intro s e b s' h hok
  unfold tableCellEndHandler at hok
  obtain ⟨s2, h1, h2⟩ := bind_ok_elim hok
  have hp := Except.ok.inj h2
  injection hp with hb hs
  subst hs
  exact bd_closeCurrentTableCell (bd_flushText h) h1

theorem pbd_tableHeaderEndHandler : PreservesBD tableHeaderEndHandler := by
  intro s e b s' h hok
  unfold tableHeaderEndHandler at hok
  obtain ⟨s2, h1, h2⟩ := bind_ok_elim hok
  have hp := Except.ok.inj h2
  injection hp with hb hs
  subst hs
  exact bd_closeCurrentTableHeader (bd_flushText h) h1

theorem pbd_taskItemStartHandler : PreservesBD taskItemStartHandler := by
  intro s e b s' h hok
  unfold taskItemStartHandler at hok
  dsimp only at hok
  split at hok
  · have hp := Except.ok.inj hok
    injection hp with hb hs
    subst hs
    exact h
  · obtain ⟨⟨inner, rest⟩, h1, h2⟩ := bind_ok_elim hok
    cases hT : attrGet e.attrs "type" with
    | none => rw [hT] at h2; exact Except.noConfusion h2
    | some inputType =>
        rw [hT] at h2
        dsimp only at h2
        split at h2
        · have hp := Except.ok.inj h2
          injection hp with hb hs
          subst hs
          exact bd_popToListItem _ h h1
        · exact Except.noConfusion h2

theorem pbd_decisionStartHandler : PreservesBD decisionStartHandler := by
  intro s e b s' h hok
  have hp := Except.ok.inj hok
  injection hp with hb hs
  subst hs
  exact stackBD_cons _ h

theorem pbd_dateStartHandler : PreservesBD dateStartHandler := by
  intro s e b s' h hok
  have hp := Except.ok.inj hok
  injection hp with hb hs
  subst hs
  exact stackBD_cons _ (bd_flushText h)

theorem pbd_detailsStartHandler : PreservesBD detailsStartHandler := by
  intro s e b s' h hok
  unfold detailsStartHandler at hok
  have hp := Except.ok.inj hok
  injection hp with hb hs
  subst hs
  exact stackBD_cons _ (bd_flushText h)

theorem pbd_summaryEndHandler : PreservesBD summaryEndHandler := by
  intro s e b s' h hok
  unfold summaryEndHandler at hok
  dsimp only at hok
  cases hS : storeSummary s.stack (strTrim s.currentText) with
  | some stack2 =>
      rw [hS] at hok
      have hp := Except.ok.inj hok
      injection hp with hb hs
      subst hs
      exact bd_storeSummary h hS
  | none =>
      rw [hS] at hok
      have hp := Except.ok.inj hok
      injection hp with hb hs
      subst hs
      exact h

theorem pbd_figureStartHandler : PreservesBD figureStartHandler := by
  intro s e b s' h hok
  have hp := Except.ok.inj hok
  injection hp with hb hs
  subst hs
  exact stackBD_cons _ (bd_flushText h)

theorem pbd_mentionStartHandler : PreservesBD mentionStartHandler := by
  intro s e b s' h hok
  have hp := Except.ok.inj hok
  injection hp with hb hs
  subst hs
  exact stackBD_cons _ (bd_flushText h)

theorem pbd_localDataStartHandler : PreservesBD localDataStartHandler := by
  intro s e b s' h hok
  have hp := Except.ok.inj hok
  injection hp with hb hs
  subst hs
  exact h

theorem pbd_statusStartHandler : PreservesBD statusStartHandler := by
  intro s e b s' h hok
  have hp := Except.ok.inj hok
  injection hp with hb hs
  subst hs
  exact stackBD_cons _ (bd_flushText h)

theorem pbd_statusEndHandler : PreservesBD statusEndHandler := by
  intro s e b s' h hok
  unfold statusEndHandler at hok
  unfold BottomDoc at h
  cases hl : s.stack with
  | nil => rw [hl] at hok; exact Except.noConfusion hok
  | cons f rest =>
      rw [hl] at hok h
      cases f
      case customBlock ty ns attrs =>
        cases ty
        case status =>
          have hrest : stackBD rest := by
            cases rest with
            | nil => exact h.elim
            | cons x xs => exact h
          obtain ⟨s2, hpp, h2⟩ := bind_ok_elim hok
          have hp := Except.ok.inj h2
          injection hp with hb hs
          subst hs
          refine bd_pushNodeToParent ?_ hpp
          exact hrest
        all_goals exact Except.noConfusion hok
      all_goals exact Except.noConfusion hok

theorem pbd_emojiStartHandler : PreservesBD emojiStartHandler := by
  intro s e b s' h hok
  have hp := Except.ok.inj hok
  injection hp with hb hs
  subst hs
  exact stackBD_cons _ (bd_flushText h)

theorem pbd_emojiEndHandler : PreservesBD emojiEndHandler := by
  intro s e b s' h hok
  unfold emojiEndHandler at hok
  unfold BottomDoc at h
  cases hl : s.stack with
  | nil => rw [hl] at hok; exact Except.noConfusion hok
  | cons f rest =>
      rw [hl] at hok h
      cases f
      case customBlock ty ns attrs =>
        cases ty
        case emoji =>
          have hrest : stackBD rest := by
            cases rest with
            | nil => exact h.elim
            | cons x xs => exact h
          obtain ⟨s2, hpp, h2⟩ := bind_ok_elim hok
          have hp := Except.ok.inj h2
          injection hp with hb hs
          subst hs
          refine bd_pushNodeToParent ?_ hpp
          exact hrest
        all_goals exact Except.noConfusion hok
      all_goals exact Except.noConfusion hok

theorem pbd_mediaSingleStartHandler : PreservesBD mediaSingleStartHandler := by
  intro s e b s' h hok
  have hp := Except.ok.inj hok
  injection hp with hb hs
  subst hs
  exact stackBD_cons _ (bd_flushText h)

theorem pbd_mediaGroupStartHandler : PreservesBD mediaGroupStartHandler := by
  intro s e b s' h hok
  have hp := Except.ok.inj hok
  injection hp with hb hs
  subst hs
  exact stackBD_cons _ (bd_flushText h)

theorem pbd_mediaAndInlineCardStartHandler : PreservesBD mediaAndInlineCardStartHandler := by
  intro s e b s' h hok
  unfold mediaAndInlineCardStartHandler at hok
  dsimp only at hok
  split at hok
  · split at hok
    · cases hH : attrGet e.attrs "href" with
      | some href =>
          rw [hH] at hok
          dsimp only at hok
          obtain ⟨s2, hpp, h2⟩ := bind_ok_elim hok
          have hp := Except.ok.inj h2
          injection hp with hb hs
          subst hs
          exact bd_pushMediaNodeToParent h hpp
      | none => rw [hH] at hok; exact Except.noConfusion hok
    · split at hok
      · obtain ⟨s2, hpp, h2⟩ := bind_ok_elim hok
        have hp := Except.ok.inj h2
        injection hp with hb hs
        subst hs
        exact bd_pushMediaNodeToParent h hpp
      · exact Except.noConfusion hok
  · split at hok
    · split at hok
      · have hp := Except.ok.inj hok
        injection hp with hb hs
        subst hs
        exact stackBD_cons _ (bd_flushText h)
      · exact Except.noConfusion hok
    · have hp := Except.ok.inj hok
      injection hp with hb hs
      subst hs
      exact h

theorem pbd_inlineCardEndHandler : PreservesBD inlineCardEndHandler := by
  intro s e b s' h hok
  unfold inlineCardEndHandler at hok
  split at hok
  · have hp := Except.ok.inj hok
    injection hp with hb hs
    subst hs
    exact h
  · cases hl : s.stack with
    | nil =>
        rw [hl] at hok
        have hp := Except.ok.inj hok
        injection hp with hb hs
        subst hs
        exact h
    | cons f rest =>
        rw [hl] at hok
        have h1 : stackBD (f :: rest) := by
          have h2 : stackBD s.stack := h
          rw [hl] at h2
          exact h2
        cases f
        case customBlock ty ns attrs =>
          cases ty
          case inlineCard =>
            have hrest : stackBD rest := by
              cases rest with
              | nil => exact h1.elim
              | cons x xs => exact h1
            obtain ⟨s2, hpp, h2⟩ := bind_ok_elim hok
            have hp := Except.ok.inj h2
            injection hp with hb hs
            subst hs
            refine bd_pushNodeToParent ?_ hpp
            exact hrest
          all_goals
            have hp := Except.ok.inj hok
            injection hp with hb hs
            subst hs
            exact h
        all_goals
          have hp := Except.ok.inj hok
          injection hp with hb hs
          subst hs
          exact h

theorem pbd_baseStartRegistry {tag : String} {hh : Handler}
    (hreg : baseStartHandlerFor tag = some hh) : PreservesBD hh := by
  unfold baseStartHandlerFor at hreg
  by_cases h1 : tag = "ul"
  · rw [if_pos h1] at hreg; obtain rfl := Option.some.inj hreg; exact pbd_ulStartHandler
  rw [if_neg h1] at hreg
  by_cases h2 : tag = "ol"
  · rw [if_pos h2] at hreg; obtain rfl := Option.some.inj hreg; exact pbd_olStartHandler
  rw [if_neg h2] at hreg
  by_cases h3 : tag = "li"
  · rw [if_pos h3] at hreg; obtain rfl := Option.some.inj hreg; exact pbd_liStartHandler
  rw [if_neg h3] at hreg
  by_cases h4 : tag = "p"
  · rw [if_pos h4] at hreg; obtain rfl := Option.some.inj hreg; exact pbd_pStartHandler
  rw [if_neg h4] at hreg
  by_cases h5 : tag = "pre"
  · rw [if_pos h5] at hreg; obtain rfl := Option.some.inj hreg; exact pbd_preStartHandler
  rw [if_neg h5] at hreg
  by_cases h6 : tag = "blockquote"
  · rw [if_pos h6] at hreg; obtain rfl := Option.some.inj hreg; exact pbd_blockquoteStartHandler
  rw [if_neg h6] at hreg
  by_cases h7 : tag = "em"
  · rw [if_pos h7] at hreg; obtain rfl := Option.some.inj hreg; exact pbd_pushMarkHandler _
  rw [if_neg h7] at hreg
  by_cases h8 : tag = "strong"
  · rw [if_pos h8] at hreg; obtain rfl := Option.some.inj hreg; exact pbd_pushMarkHandler _
  rw [if_neg h8] at hreg
  by_cases h9 : tag = "del"
  · rw [if_pos h9] at hreg; obtain rfl := Option.some.inj hreg; exact pbd_pushMarkHandler _
  rw [if_neg h9] at hreg
  by_cases h10 : tag = "a"
  · rw [if_pos h10] at hreg; obtain rfl := Option.some.inj hreg; exact pbd_aStartHandler
  rw [if_neg h10] at hreg
  by_cases h11 : tag = "u"
  · rw [if_pos h11] at hreg; obtain rfl := Option.some.inj hreg; exact pbd_pushMarkHandler _
  rw [if_neg h11] at hreg
  by_cases h12 : tag = "sub"
  · rw [if_pos h12] at hreg; obtain rfl := Option.some.inj hreg; exact pbd_pushMarkHandler _
  rw [if_neg h12] at hreg
  by_cases h13 : tag = "sup"
  · rw [if_pos h13] at hreg; obtain rfl := Option.some.inj hreg; exact pbd_pushMarkHandler _
  rw [if_neg h13] at hreg
  by_cases h14 : tag = "h1"
  · rw [if_pos h14] at hreg; obtain rfl := Option.some.inj hreg; exact pbd_headerStartHandler _
  rw [if_neg h14] at hreg
  by_cases h15 : tag = "h2"
  · rw [if_pos h15] at hreg; obtain rfl := Option.some.inj hreg; exact pbd_headerStartHandler _
  rw [if_neg h15] at hreg
  by_cases h16 : tag = "h3"
  · rw [if_pos h16] at hreg; obtain rfl := Option.some.inj hreg; exact pbd_headerStartHandler _
  rw [if_neg h16] at hreg
  by_cases h17 : tag = "h4"
  · rw [if_pos h17] at hreg; obtain rfl := Option.some.inj hreg; exact pbd_headerStartHandler _
  rw [if_neg h17] at hreg
  by_cases h18 : tag = "h5"
  · rw [if_pos h18] at hreg; obtain rfl := Option.some.inj hreg; exact pbd_headerStartHandler _
  rw [if_neg h18] at hreg
  by_cases h19 : tag = "h6"
  · rw [if_pos h19] at hreg; obtain rfl := Option.some.inj hreg; exact pbd_headerStartHandler _
  rw [if_neg h19] at hreg
  by_cases h20 : tag = "table"
  · rw [if_pos h20] at hreg; obtain rfl := Option.some.inj hreg; exact pbd_tableStartHandler
  rw [if_neg h20] at hreg
  by_cases h21 : tag = "thead"
  · rw [if_pos h21] at hreg; obtain rfl := Option.some.inj hreg; exact pbd_tableSectionHandler
  rw [if_neg h21] at hreg
  by_cases h22 : tag = "tbody"
  · rw [if_pos h22] at hreg; obtain rfl := Option.some.inj hreg; exact pbd_tableSectionHandler
  rw [if_neg h22] at hreg
  by_cases h23 : tag = "tr"
  · rw [if_pos h23] at hreg; obtain rfl := Option.some.inj hreg; exact pbd_tableRowStartHandler
  rw [if_neg h23] at hreg
  by_cases h24 : tag = "th"
  · rw [if_pos h24] at hreg; obtain rfl := Option.some.inj hreg; exact pbd_tableHeaderStartHandler
  rw [if_neg h24] at hreg
  by_cases h25 : tag = "td"
  · rw [if_pos h25] at hreg; obtain rfl := Option.some.inj hreg; exact pbd_tableCellStartHandler
  rw [if_neg h25] at hreg
  by_cases h26 : tag = "br"
  · rw [if_pos h26] at hreg; obtain rfl := Option.some.inj hreg; exact pbd_hardBreakStartHandler
  rw [if_neg h26] at hreg
  by_cases h27 : tag = "hr"
  · rw [if_pos h27] at hreg; obtain rfl := Option.some.inj hreg; exact pbd_ruleStartHandler
  rw [if_neg h27] at hreg
  by_cases h28 : tag = "code"
  · rw [if_pos h28] at hreg; obtain rfl := Option.some.inj hreg; exact pbd_codeStartHandler
  rw [if_neg h28] at hreg
  by_cases h29 : tag = "div"
  · rw [if_pos h29] at hreg; obtain rfl := Option.some.inj hreg; exact pbd_divStartHandler
  rw [if_neg h29] at hreg
  by_cases h30 : tag = "span"
  · rw [if_pos h30] at hreg; obtain rfl := Option.some.inj hreg; exact pbd_spanStartHandler
  rw [if_neg h30] at hreg
  by_cases h31 : tag = "time"
  · rw [if_pos h31] at hreg; obtain rfl := Option.some.inj hreg; exact pbd_dateStartHandler
  rw [if_neg h31] at hreg
  by_cases h32 : tag = "details"
  · rw [if_pos h32] at hreg; obtain rfl := Option.some.inj hreg; exact pbd_detailsStartHandler
  rw [if_neg h32] at hreg
  by_cases h33 : tag = "figure"
  · rw [if_pos h33] at hreg; obtain rfl := Option.some.inj hreg; exact pbd_figureStartHandler
  rw [if_neg h33] at hreg
  by_cases h34 : tag = "adf-task-item"
  · rw [if_pos h34] at hreg; obtain rfl := Option.some.inj hreg; exact pbd_taskItemStartHandler
  rw [if_neg h34] at hreg
  by_cases h35 : tag = "adf-decision-item"
  · rw [if_pos h35] at hreg; obtain rfl := Option.some.inj hreg; exact pbd_decisionStartHandler
  rw [if_neg h35] at hreg
  by_cases h36 : tag = "adf-local-data"
  · rw [if_pos h36] at hreg; obtain rfl := Option.some.inj hreg; exact pbd_localDataStartHandler
  rw [if_neg h36] at hreg
  by_cases h37 : tag = "adf-status"
  · rw [if_pos h37] at hreg; obtain rfl := Option.some.inj hreg; exact pbd_statusStartHandler
  rw [if_neg h37] at hreg
  by_cases h38 : tag = "adf-emoji"
  · rw [if_pos h38] at hreg; obtain rfl := Option.some.inj hreg; exact pbd_emojiStartHandler
  rw [if_neg h38] at hreg
  by_cases h39 : tag = "adf-mention"
  · rw [if_pos h39] at hreg; obtain rfl := Option.some.inj hreg; exact pbd_mentionStartHandler
  rw [if_neg h39] at hreg
  by_cases h40 : tag = "adf-media-single"
  · rw [if_pos h40] at hreg; obtain rfl := Option.some.inj hreg; exact pbd_mediaSingleStartHandler
  rw [if_neg h40] at hreg
  by_cases h41 : tag = "adf-media-group"
  · rw [if_pos h41] at hreg; obtain rfl := Option.some.inj hreg; exact pbd_mediaGroupStartHandler
  rw [if_neg h41] at hreg
  exact Option.noConfusion hreg

theorem pbd_baseEndRegistrySafe {tag : String} (htag : tag ∉ unsafeEndTags) {hh : Handler}
    (hreg : baseEndHandlerFor tag = some hh) : PreservesBD hh := by
  unfold baseEndHandlerFor at hreg
  by_cases h1 : tag = "ul"
  · rw [if_pos h1] at hreg; obtain rfl := Option.some.inj hreg; exact pbd_listEndHandler
  rw [if_neg h1] at hreg
  by_cases h2 : tag = "ol"
  · rw [if_pos h2] at hreg; obtain rfl := Option.some.inj hreg; exact pbd_listEndHandler
  rw [if_neg h2] at hreg
  by_cases h3 : tag = "li"
  · rw [if_pos h3] at hreg; obtain rfl := Option.some.inj hreg; exact pbd_liEndHandler
  rw [if_neg h3] at hreg
  by_cases h4 : tag = "p"
  · rw [if_pos h4] at hreg; obtain rfl := Option.some.inj hreg; exact pbd_blockEndHandler
  rw [if_neg h4] at hreg
  by_cases h5 : tag = "pre"
  · rw [if_pos h5] at hreg; obtain rfl := Option.some.inj hreg; exact pbd_blockEndHandler
  rw [if_neg h5] at hreg
  by_cases h6 : tag = "blockquote"
  · rw [if_pos h6] at hreg; obtain rfl := Option.some.inj hreg; exact pbd_blockEndHandler
  rw [if_neg h6] at hreg
  by_cases h7 : tag = "em"
  · rw [if_pos h7] at hreg; obtain rfl := Option.some.inj hreg; exact pbd_markEndHandler
  rw [if_neg h7] at hreg
  by_cases h8 : tag = "strong"
  · rw [if_pos h8] at hreg; obtain rfl := Option.some.inj hreg; exact pbd_markEndHandler
  rw [if_neg h8] at hreg
  by_cases h9 : tag = "del"
  · rw [if_pos h9] at hreg; obtain rfl := Option.some.inj hreg; exact pbd_markEndHandler
  rw [if_neg h9] at hreg
  by_cases h10 : tag = "a"
  · rw [if_pos h10] at hreg; obtain rfl := Option.some.inj hreg; exact pbd_markEndHandler
  rw [if_neg h10] at hreg
  by_cases h11 : tag = "u"
  · rw [if_pos h11] at hreg; obtain rfl := Option.some.inj hreg; exact pbd_markEndHandler
  rw [if_neg h11] at hreg
  by_cases h12 : tag = "sub"
  · rw [if_pos h12] at hreg; obtain rfl := Option.some.inj hreg; exact pbd_markEndHandler
  rw [if_neg h12] at hreg
  by_cases h13 : tag = "sup"
  · rw [if_pos h13] at hreg; obtain rfl := Option.some.inj hreg; exact pbd_markEndHandler
  rw [if_neg h13] at hreg
  by_cases h14 : tag = "h1"
  · rw [if_pos h14] at hreg; obtain rfl := Option.some.inj hreg; exact pbd_headerEndHandler _
  rw [if_neg h14] at hreg
  by_cases h15 : tag = "h2"
  · rw [if_pos h15] at hreg; obtain rfl := Option.some.inj hreg; exact pbd_headerEndHandler _
  rw [if_neg h15] at hreg
  by_cases h16 : tag = "h3"
  · rw [if_pos h16] at hreg; obtain rfl := Option.some.inj hreg; exact pbd_headerEndHandler _
  rw [if_neg h16] at hreg
  by_cases h17 : tag = "h4"
  · rw [if_pos h17] at hreg; obtain rfl := Option.some.inj hreg; exact pbd_headerEndHandler _
  rw [if_neg h17] at hreg
  by_cases h18 : tag = "h5"
  · rw [if_pos h18] at hreg; obtain rfl := Option.some.inj hreg; exact pbd_headerEndHandler _
  rw [if_neg h18] at hreg
  by_cases h19 : tag = "h6"
  · rw [if_pos h19] at hreg; obtain rfl := Option.some.inj hreg; exact pbd_headerEndHandler _
  rw [if_neg h19] at hreg
  by_cases h20 : tag = "table"
  · exact absurd (by rw [h20]; decide) htag
  rw [if_neg h20] at hreg
  by_cases h21 : tag = "thead"
  · rw [if_pos h21] at hreg; obtain rfl := Option.some.inj hreg; exact pbd_tableSectionHandler
  rw [if_neg h21] at hreg
  by_cases h22 : tag = "tbody"
  · rw [if_pos h22] at hreg; obtain rfl := Option.some.inj hreg; exact pbd_tableSectionHandler
  rw [if_neg h22] at hreg
  by_cases h23 : tag = "tr"
  · rw [if_pos h23] at hreg; obtain rfl := Option.some.inj hreg; exact pbd_tableRowEndHandler
  rw [if_neg h23] at hreg
  by_cases h24 : tag = "th"
  · rw [if_pos h24] at hreg; obtain rfl := Option.some.inj hreg; exact pbd_tableHeaderEndHandler
  rw [if_neg h24] at hreg
  by_cases h25 : tag = "td"
  · rw [if_pos h25] at hreg; obtain rfl := Option.some.inj hreg; exact pbd_tableCellEndHandler
  rw [if_neg h25] at hreg
  by_cases h26 : tag = "code"
  · rw [if_pos h26] at hreg; obtain rfl := Option.some.inj hreg; exact pbd_codeEndHandler
  rw [if_neg h26] at hreg
  by_cases h27 : tag = "div"
  · rw [if_pos h27] at hreg; obtain rfl := Option.some.inj hreg; exact pbd_divEndHandler
  rw [if_neg h27] at hreg
  by_cases h28 : tag = "span"
  · rw [if_pos h28] at hreg; obtain rfl := Option.some.inj hreg; exact pbd_markEndHandler
  rw [if_neg h28] at hreg
  by_cases h29 : tag = "time"
  · exact absurd (by rw [h29]; decide) htag
  rw [if_neg h29] at hreg
  by_cases h30 : tag = "details"
  · exact absurd (by rw [h30]; decide) htag
  rw [if_neg h30] at hreg
  by_cases h31 : tag = "figure"
  · exact absurd (by rw [h31]; decide) htag
  rw [if_neg h31] at hreg
  by_cases h32 : tag = "summary"
  · rw [if_pos h32] at hreg; obtain rfl := Option.some.inj hreg; exact pbd_summaryEndHandler
  rw [if_neg h32] at hreg
  by_cases h33 : tag = "adf-status"
  · rw [if_pos h33] at hreg; obtain rfl := Option.some.inj hreg; exact pbd_statusEndHandler
  rw [if_neg h33] at hreg
  by_cases h34 : tag = "adf-emoji"
  · rw [if_pos h34] at hreg; obtain rfl := Option.some.inj hreg; exact pbd_emojiEndHandler
  rw [if_neg h34] at hreg
  by_cases h35 : tag = "adf-mention"
  · exact absurd (by rw [h35]; decide) htag
  rw [if_neg h35] at hreg
  by_cases h36 : tag = "adf-media-single"
  · exact absurd (by rw [h36]; decide) htag
  rw [if_neg h36] at hreg
  by_cases h37 : tag = "adf-media-group"
  · exact absurd (by rw [h37]; decide) htag
  rw [if_neg h37] at hreg
  exact Option.noConfusion hreg

theorem pbd_customStartRegistry {tag : String} {hh : Handler}
    (hreg : customStartHandlerFor tag = some hh) : PreservesBD hh := by
  unfold customStartHandlerFor at hreg
  by_cases h1 : tag = "a"
  · rw [if_pos h1] at hreg; obtain rfl := Option.some.inj hreg; exact pbd_mediaAndInlineCardStartHandler
  rw [if_neg h1] at hreg
  by_cases h2 : tag = "img"
  · rw [if_pos h2] at hreg; obtain rfl := Option.some.inj hreg; exact pbd_mediaAndInlineCardStartHandler
  rw [if_neg h2] at hreg
  exact Option.noConfusion hreg

theorem pbd_customEndRegistry {tag : String} {hh : Handler}
    (hreg : customEndHandlerFor tag = some hh) : PreservesBD hh := by
  unfold customEndHandlerFor at hreg
  by_cases h1 : tag = "a"
  · rw [if_pos h1] at hreg; obtain rfl := Option.some.inj hreg; exact pbd_inlineCardEndHandler
  rw [if_neg h1] at hreg
  exact Option.noConfusion hreg

theorem bd_runBaseTier {lookup : String → Option Handler} {s : ADFBuilderState}
    {e : Element} {s' : ADFBuilderState}
    (hl : ∀ hh, lookup e.tag = some hh → PreservesBD hh)
    (h : BottomDoc s) (hok : runBaseTier lookup s e = .ok s') : BottomDoc s' := by
  unfold runBaseTier at hok
  cases hreg : lookup e.tag with
  | none =>
      rw [hreg] at hok
      obtain rfl := Except.ok.inj hok
      exact h
  | some hh =>
      rw [hreg] at hok
      obtain ⟨⟨b, s2⟩, h1, h2⟩ := bind_ok_elim hok
      obtain rfl := Except.ok.inj h2
      exact hl _ hreg s e b s2 h h1

theorem bd_dispatchTag {cl bl : String → Option Handler} {s : ADFBuilderState}
    {e : Element} {s' : ADFBuilderState}
    (hc : ∀ hh, cl e.tag = some hh → PreservesBD hh)
    (hb : ∀ hh, bl e.tag = some hh → PreservesBD hh)
    (h : BottomDoc s) (hok : dispatchTag cl bl s e = .ok s') : BottomDoc s' := by
  unfold dispatchTag at hok
  cases hreg : cl e.tag with
  | none =>
      rw [hreg] at hok
      exact bd_runBaseTier hb h hok
  | some hh =>
      rw [hreg] at hok
      obtain ⟨⟨consumed, s2⟩, h1, h2⟩ := bind_ok_elim hok
      have hbd2 : BottomDoc s2 := hc _ hreg s e consumed s2 h h1
      have h2' : (if consumed then Except.ok s2 else runBaseTier bl s2 e) = .ok s' := h2
      split at h2'
      · obtain rfl := Except.ok.inj h2'
        exact hbd2
      · exact bd_runBaseTier hb hbd2 h2'

theorem bd_processToken {s : ADFBuilderState} {tok : HtmlToken} {s' : ADFBuilderState}
    (h : BottomDoc s) (hsafe : SafeToken tok)
    (hok : processToken s tok = .ok s') : BottomDoc s' := by
  cases tok with
  | chars t =>
      obtain rfl := Except.ok.inj hok
      exact h
  | startTag e =>
      exact bd_dispatchTag (fun hh hreg => pbd_customStartRegistry hreg)
        (fun hh hreg => pbd_baseStartRegistry hreg) h hok
  | endTag e =>
      exact bd_dispatchTag (fun hh hreg => pbd_customEndRegistry hreg)
        (fun hh hreg => pbd_baseEndRegistrySafe hsafe hreg) h hok

theorem emit_yields_doc {s : ADFBuilderState} {d : Adf}
    (hok : emit s = .ok d) : ∃ ns, d = .doc ns 1 := by
  unfold emit at hok
  obtain ⟨s2, h1, h2⟩ := bind_ok_elim hok
  cases hl : s2.stack with
  | nil => rw [hl] at h2; exact Except.noConfusion h2
  | cons f rest =>
      rw [hl] at h2
      cases f
      case document content => exact ⟨content, (Except.ok.inj h2).symm⟩
      all_goals exact Except.noConfusion h2

/-- C2 — counterexample.  The claim that *every* non-panicking handler
preserves the bottom-Document invariant fails: the `time` end handler
pops the top frame unconditionally before checking it, so a stray
`</time>` on the fresh builder consumes the Document frame itself.  The
run does not fault, and the resulting state has an empty stack — no
frame at all, let alone a bottom Document frame. -/
theorem c2_stack_invariant_counterexample :
    processToken initialState (.endTag { tag := "time", attrs := [], selfClosing := false }) =
      .ok { initialState with stack := [] } ∧
    ¬ BottomDoc { initialState with stack := ([] : List BlockContext) } :=
  ⟨rfl, fun hfalse => hfalse⟩

/-- C2 — amended.  The bottom-Document invariant (stack nonempty, bottom
frame is the Document frame) holds of the initial builder state and is
preserved by every non-faulting handler run except for the seven
unconditionally-popping end tags (`table`, `time`, `details`, `figure`,
`adf-mention`, `adf-media-single`, `adf-media-group`); and `emit`
closes frames innermost-first down to the Document frame, so a
successful `emit` always returns a version-1 Doc node built from the
Document frame's content. -/
theorem c2_stack_invariant_amended :
    BottomDoc initialState ∧
    (∀ s tok s', BottomDoc s → SafeToken tok → processToken s tok = .ok s' →
      BottomDoc s') ∧
    (∀ s d, emit s = .ok d → ∃ ns, d = .doc ns 1) :=
  ⟨trivial, fun _s _tok _s' h hsafe hok => bd_processToken h hsafe hok,
   fun _s _d hok => emit_yields_doc hok⟩

/-- C2 — witness: the preservation part of the amended theorem applied at
a concrete input, the `<p>` start tag on the initial state. -/
theorem c2_stack_invariant_amended_witness :
    BottomDoc initialState ∧
    SafeToken (.startTag { tag := "p", attrs := [], selfClosing := false }) ∧
    processToken initialState (.startTag { tag := "p", attrs := [], selfClosing := false }) =
      .ok c2WitnessState ∧
    BottomDoc c2WitnessState :=
  ⟨trivial, trivial, rfl,
   c2_stack_invariant_amended.2.1 initialState
     (.startTag { tag := "p", attrs := [], selfClosing := false }) c2WitnessState
     trivial trivial rfl⟩

end AdfConvert
